import Mathlib

/-!
Verification development for a travel-rule compliance calculator.

The definitions below are a shallow embedding of the calculator's core
(requirement extraction, the four-pass field matcher, the
compliance-status classifier and the orchestrator).  JavaScript `Set`s
are modelled as insertion-ordered duplicate-free lists, plain objects
used as string maps are modelled as association lists whose assignment
replaces in place or appends, and the JavaScript truthiness test
applied to looked-up resolution strings is modelled by `truthy`
(an absent value and the empty string are falsy).  Monetary amounts are
modelled as rationals.  The jurisdiction table and the currency
converter are external configuration data and are passed to the
orchestrator as parameters.
-/

namespace TravelRule

inductive TransferDirection
  | OUT
  | IN
  deriving DecidableEq

inductive ComplianceStatus
  | full_match
  | overcompliance
  | counterparty_may_request_more
  | sender_may_not_provide
  deriving DecidableEq

inductive GroupLogic
  | AND
  | OR
  deriving DecidableEq

/-- One requirement group of a jurisdiction's rule set. -/
structure RequirementGroup where
  fields : List String
  logic : GroupLogic
  deriving DecidableEq

/-- One entry of the matcher's match list. The two optional flags are
absent (`none`) on matches that do not come from an OR-group. -/
structure FieldMatch where
  sumsubField : String
  counterpartyField : String
  isExactMatch : Bool
  isOrGroupMatch : Option Bool
  orGroupId : Option String
  deriving DecidableEq

/-- The matcher's result record. -/
structure FieldAnalysis where
  missing_fields : List String
  extra_fields : List String
  matching_fields : List String
  sumsub_sends_more : List String
  counterparty_sends_more : List String
  field_matches : List FieldMatch
  or_group_matches : List (String × String)
  deriving DecidableEq

/-- JavaScript `Set.add`: append if absent, keeping insertion order. -/
def setAdd (l : List String) (x : String) : List String :=
  if x ∈ l then l else l ++ [x]

/-- Property read on an object used as a string-to-string map. -/
def lookupRes (l : List (String × String)) (k : String) : Option String :=
  (l.find? (fun p => p.1 == k)).map Prod.snd

/-- Property assignment on an object used as a string-to-string map:
replace the entry in place if the key is present, append otherwise. -/
def setRes (l : List (String × String)) (k v : String) : List (String × String) :=
  if l.any (fun p => p.1 == k) then
    l.map (fun p => if p.1 == k then (k, v) else p)
  else l ++ [(k, v)]

/-- JavaScript truthiness of a possibly-absent string: `undefined` and
the empty string are falsy, every other string is truthy. -/
def truthy : Option String → Bool
  | none => false
  | some s => decide (s ≠ "")

/-- Result of `extractRequiredFieldsWithOrLogic`. -/
structure Extracted where
  requiredFields : List String
  orGroups : List (String × List String)
  deriving DecidableEq

/-- One step of the extraction fold: AND fields go to the mandatory
set, an OR group is recorded under the next `or_group_<n>` identifier
and bumps the counter. -/
def extractStep (acc : Extracted × Nat) (group : RequirementGroup) : Extracted × Nat :=
  match group.logic with
  | .AND => (⟨group.fields.foldl setAdd acc.1.requiredFields, acc.1.orGroups⟩, acc.2)
  | .OR =>
    (⟨acc.1.requiredFields,
      acc.1.orGroups ++ [("or_group_" ++ toString acc.2, group.fields)]⟩, acc.2 + 1)

/-- Extraction of mandatory fields and OR-groups from a rule set. -/
def extractRequiredFieldsWithOrLogic (requirements : List RequirementGroup) : Extracted :=
  (requirements.foldl extractStep (⟨[], []⟩, 0)).1

/-- Mutable state threaded through the matcher's four passes. -/
structure MatchState where
  fieldMatches : List FieldMatch
  matchedSumsubFields : List String
  matchedCounterpartyFields : List String
  orGroupMatches : List (String × String)
  deriving DecidableEq

def initState : MatchState := ⟨[], [], [], []⟩

/-- Pass 1 body: an exact match for a mandatory field present on both sides. -/
def pass1Step (counterpartyFields : List String) (st : MatchState) (sumsubField : String) :
    MatchState :=
  if sumsubField ∈ counterpartyFields then
    { st with
        fieldMatches := st.fieldMatches ++ [⟨sumsubField, sumsubField, true, none, none⟩],
        matchedSumsubFields := setAdd st.matchedSumsubFields sumsubField,
        matchedCounterpartyFields := setAdd st.matchedCounterpartyFields sumsubField }
  else st

/-- Pass 1: exact matches over the sumsub mandatory fields in order. -/
def pass1 (sumsubFields counterpartyFields : List String) : MatchState :=
  sumsubFields.foldl (pass1Step counterpartyFields) initState

/-- The DEU-style 4-field alternative-identity group test. -/
def isDeuOrGroup (orFields : List String) : Bool :=
  decide (orFields.length = 4) &&
  decide (("id_document_number") ∈ orFields) &&
  decide (("customer_id") ∈ orFields) &&
  decide (("date_of_birth") ∈ orFields) &&
  decide (("birthplace") ∈ orFields)

/-- The DEU combination test: the counterpart field set holds both
date_of_birth and birthplace (the group's own fields are unused). -/
def checkDeuCombinationMatch (fieldSet : List String) (orFields : List String) : Bool :=
  decide (("date_of_birth") ∈ fieldSet) && decide (("birthplace") ∈ fieldSet)

/-- Record a single-field OR-group resolution: one alternative-flagged
exact match, both sides claimed, resolution set to the field. -/
def addOrMatch (st : MatchState) (groupId f : String) : MatchState :=
  { fieldMatches := st.fieldMatches ++ [⟨f, f, true, some true, some groupId⟩],
    matchedSumsubFields := setAdd st.matchedSumsubFields f,
    matchedCounterpartyFields := setAdd st.matchedCounterpartyFields f,
    orGroupMatches := setRes st.orGroupMatches groupId f }

/-- Record a DEU combination resolution: two alternative-flagged exact
matches, both fields claimed on both sides, composite resolution label. -/
def applyDeuCombination (st : MatchState) (groupId : String) : MatchState :=
  { fieldMatches := st.fieldMatches ++
      [⟨("date_of_birth"), ("date_of_birth"), true, some true, some groupId⟩,
       ⟨("birthplace"), ("birthplace"), true, some true, some groupId⟩],
    matchedSumsubFields :=
      setAdd (setAdd st.matchedSumsubFields ("date_of_birth")) ("birthplace"),
    matchedCounterpartyFields :=
      setAdd (setAdd st.matchedCounterpartyFields ("date_of_birth")) ("birthplace"),
    orGroupMatches := setRes st.orGroupMatches groupId ("date_of_birth + birthplace") }

/-- The single-field scan of an OR-group's declared field list: the
first field present in the counterpart mandatory set and not yet in the
sumsub-side claimed set resolves the group (the source tests the
sumsub-side claimed set in pass 3 as well). -/
def orGroupScan (fieldsSet : List String) (st : MatchState) (g : String × List String) :
    MatchState :=
  match g.2.find? (fun f => decide (f ∈ fieldsSet ∧ f ∉ st.matchedSumsubFields)) with
  | some f => addOrMatch st g.1 f
  | none => st

/-- The DEU combination block run after the single-field scan: if the
group is still unresolved and is the DEU 4-field group and the
counterpart set holds date_of_birth and birthplace, apply the
combination. -/
def orGroupCombination (fieldsSet : List String) (g : String × List String)
    (st1 : MatchState) : MatchState :=
  if !truthy (lookupRes st1.orGroupMatches g.1) && isDeuOrGroup g.2 then
    if checkDeuCombinationMatch fieldsSet g.2 then applyDeuCombination st1 g.1 else st1
  else st1

/-- Pass 2 body, for one of the counterparty's OR-groups: skip if the
shared resolution record already has a truthy entry for the group's
identifier; otherwise run the single-field scan and then the DEU
combination block, both against the sumsub mandatory set. -/
def pass2Group (sumsubFields : List String) (st : MatchState) (g : String × List String) :
    MatchState :=
  if truthy (lookupRes st.orGroupMatches g.1) then st
  else orGroupCombination sumsubFields g (orGroupScan sumsubFields st g)

/-- Pass 3 body, for one of the sumsub side's OR-groups: the source
block is textually identical to the pass 2 body with the counterparty
mandatory set in place of the sumsub one — including the scan's test of
the sumsub-side claimed set. -/
def pass3Group (counterpartyFields : List String) (st : MatchState) (g : String × List String) :
    MatchState :=
  if truthy (lookupRes st.orGroupMatches g.1) then st
  else orGroupCombination counterpartyFields g (orGroupScan counterpartyFields st g)

/-- Spec-side variant of the single-field scan, following the
specification's words: the claim test is against the counterparty-side
claimed set. -/
def orGroupScanSpec (fieldsSet : List String) (st : MatchState) (g : String × List String) :
    MatchState :=
  match g.2.find? (fun f => decide (f ∈ fieldsSet ∧ f ∉ st.matchedCounterpartyFields)) with
  | some f => addOrMatch st g.1 f
  | none => st

/-- Spec-side variant of the pass 3 body: identical to `pass3Group`
except that the single-field scan tests the counterparty-side claimed
set, as the specification words pass 3. -/
def pass3GroupSpec (counterpartyFields : List String) (st : MatchState)
    (g : String × List String) : MatchState :=
  if truthy (lookupRes st.orGroupMatches g.1) then st
  else orGroupCombination counterpartyFields g (orGroupScanSpec counterpartyFields st g)

/-- The static semantic equivalence table, verbatim from the source. -/
def semanticMappingsTable : List (String × List String) := [
  ("full_name", ["company_name", "registered_name"]),
  ("company_name", ["full_name", "registered_name"]),
  ("registered_name", ["full_name", "company_name"]),
  ("residential_address", ["company_address", "registered_address"]),
  ("company_address", ["residential_address", "registered_address"]),
  ("registered_address", ["residential_address", "company_address"]),
  ("id_document_number", ["company_registration_number", "registration_number", "lei_or_equivalent"]),
  ("company_registration_number", ["id_document_number", "registration_number", "lei_or_equivalent"]),
  ("registration_number", ["id_document_number", "company_registration_number", "lei_or_equivalent"]),
  ("lei_or_equivalent", ["id_document_number", "company_registration_number", "registration_number"]),
  ("customer_id", ["internal_id", "client_id", "account_id"]),
  ("internal_id", ["customer_id", "client_id", "account_id"]),
  ("client_id", ["customer_id", "internal_id", "account_id"]),
  ("account_id", ["customer_id", "internal_id", "client_id"]),
  ("date_of_birth", ["birth_date", "dob"]),
  ("birth_date", ["date_of_birth", "dob"]),
  ("dob", ["date_of_birth", "birth_date"]),
  ("birthplace", ["birth_location", "place_of_birth"]),
  ("birth_location", ["birthplace", "place_of_birth"]),
  ("place_of_birth", ["birthplace", "birth_location"]),
  ("phone_number", ["telephone", "mobile_number", "contact_number"]),
  ("telephone", ["phone_number", "mobile_number", "contact_number"]),
  ("mobile_number", ["phone_number", "telephone", "contact_number"]),
  ("contact_number", ["phone_number", "telephone", "mobile_number"]),
  ("email_address", ["email", "electronic_mail"]),
  ("email", ["email_address", "electronic_mail"]),
  ("electronic_mail", ["email_address", "email"]),
  ("wallet_address", ["crypto_address", "blockchain_address", "virtual_asset_address", "dlt_address"]),
  ("crypto_address", ["wallet_address", "blockchain_address", "virtual_asset_address", "dlt_address"]),
  ("blockchain_address", ["wallet_address", "crypto_address", "virtual_asset_address", "dlt_address"]),
  ("virtual_asset_address", ["wallet_address", "crypto_address", "blockchain_address", "dlt_address"]),
  ("dlt_address", ["wallet_address", "crypto_address", "blockchain_address", "virtual_asset_address"]),
  ("nationality", ["citizenship", "country_of_citizenship"]),
  ("citizenship", ["nationality", "country_of_citizenship"]),
  ("country_of_citizenship", ["nationality", "citizenship"]),
  ("occupation", ["profession", "job_title", "employment"]),
  ("profession", ["occupation", "job_title", "employment"]),
  ("job_title", ["occupation", "profession", "employment"]),
  ("employment", ["occupation", "profession", "job_title"]),
  ("authorized_representative", ["signatory", "authorized_person", "legal_representative"]),
  ("signatory", ["authorized_representative", "authorized_person", "legal_representative"]),
  ("authorized_person", ["authorized_representative", "signatory", "legal_representative"]),
  ("legal_representative", ["authorized_representative", "signatory", "authorized_person"])]

/-- Alias list of a field key (empty for keys outside the table). -/
def semanticAliases (key : String) : List String :=
  ((semanticMappingsTable.find? (fun p => p.1 == key)).map Prod.snd).getD []

/-- Candidate semantic matches: for each sumsub field in order, every
alias of it present among the counterparty fields, in table order. -/
def findSemanticMatches (sumsubFields counterpartyFields : List String) : List FieldMatch :=
  sumsubFields.flatMap (fun s =>
    ((semanticAliases s).filter (fun c => decide (c ∈ counterpartyFields))).map
      (fun c => ⟨s, c, false, none, none⟩))

/-- Pass 4 body: accept a candidate semantic match only if both of its
fields are still unclaimed on their respective sides. -/
def pass4Step (st : MatchState) (m : FieldMatch) : MatchState :=
  if m.sumsubField ∉ st.matchedSumsubFields ∧ m.counterpartyField ∉ st.matchedCounterpartyFields then
    { st with
        fieldMatches := st.fieldMatches ++ [m],
        matchedSumsubFields := setAdd st.matchedSumsubFields m.sumsubField,
        matchedCounterpartyFields := setAdd st.matchedCounterpartyFields m.counterpartyField }
  else st

/-- State after all four matching passes. -/
def matchState (sumsubFields counterpartyFields : List String)
    (sumsubOrGroups counterpartyOrGroups : List (String × List String)) : MatchState :=
  let st1 := pass1 sumsubFields counterpartyFields
  let st2 := counterpartyOrGroups.foldl (pass2Group sumsubFields) st1
  let st3 := sumsubOrGroups.foldl (pass3Group counterpartyFields) st2
  (findSemanticMatches sumsubFields counterpartyFields).foldl pass4Step st3

/-- The matcher: four passes, then direction-dependent post-processing. -/
def analyzeFieldDifferencesWithOrGroups (sumsubFields counterpartyFields : List String)
    (sumsubOrGroups counterpartyOrGroups : List (String × List String))
    (transferDirection : TransferDirection) : FieldAnalysis :=
  let st := matchState sumsubFields counterpartyFields sumsubOrGroups counterpartyOrGroups
  let matching_fields := st.matchedSumsubFields
  match transferDirection with
  | .OUT =>
    let missing_fields :=
      counterpartyFields.filter (fun f => decide (f ∉ st.matchedCounterpartyFields))
    let extra_fields := sumsubFields.filter (fun f => decide (f ∉ st.matchedSumsubFields))
    ⟨missing_fields, extra_fields, matching_fields, extra_fields, [],
     st.fieldMatches, st.orGroupMatches⟩
  | .IN =>
    let missing_fields := sumsubFields.filter (fun f => decide (f ∉ st.matchedSumsubFields))
    let extra_fields :=
      counterpartyFields.filter (fun f => decide (f ∉ st.matchedCounterpartyFields))
    ⟨missing_fields, extra_fields, matching_fields, [], extra_fields,
     st.fieldMatches, st.orGroupMatches⟩

/-- The classifier: computed from the two mandatory field lists and the
direction only. -/
def determineComplianceStatus (sumsubFields counterpartyFields : List String)
    (transferDirection : TransferDirection) : ComplianceStatus :=
  let sumsubHasAll := decide (∀ f ∈ counterpartyFields, f ∈ sumsubFields)
  let counterpartyHasAll := decide (∀ f ∈ sumsubFields, f ∈ counterpartyFields)
  if sumsubHasAll && counterpartyHasAll &&
      decide (sumsubFields.length = counterpartyFields.length) then
    .full_match
  else
    match transferDirection with
    | .OUT =>
      if sumsubHasAll then
        if decide (counterpartyFields.length < sumsubFields.length) then .overcompliance
        else .full_match
      else .counterparty_may_request_more
    | .IN =>
      if counterpartyHasAll then
        if decide (sumsubFields.length < counterpartyFields.length) then .overcompliance
        else .full_match
      else .sender_may_not_provide

/-- Number of match-list entries mentioning a field key on either side. -/
def occCount (f : String) (ms : List FieldMatch) : Nat :=
  (ms.filter (fun m => decide (m.sumsubField = f ∨ m.counterpartyField = f))).length

/-- The 4-field DEU alternative-identity list, in its declared order. -/
def deuFields : List String :=
  ["id_document_number", "customer_id", "date_of_birth", "birthplace"]

inductive CustomerType
  | individual
  | company
  deriving DecidableEq

/-- One tier's rule set plus flags; optional members model the optional
properties of the source record. -/
structure JurisdictionRequirements where
  requirements : List RequirementGroup
  recommended_fields : Option (List String)
  kyc_required : Option Bool
  aml_required : Option Bool
  wallet_attribution : Option Bool
  deriving DecidableEq

structure TierRequirements where
  below_threshold : JurisdictionRequirements
  above_threshold : JurisdictionRequirements
  deriving DecidableEq

/-- One jurisdiction's configuration entry. -/
structure CountryConfig where
  currency : String
  threshold : ℚ
  individual : TierRequirements
  company : TierRequirements
  deriving DecidableEq

/-- Indexing a config by the customer type key. -/
def CountryConfig.forCustomer (config : CountryConfig) : CustomerType → TierRequirements
  | .individual => config.individual
  | .company => config.company

structure TransactionInput where
  sumsub_vasp_country : String
  counterparty_vasp_country : String
  customer_type : CustomerType
  transfer_direction : TransferDirection
  transfer_amount : ℚ

/-- One side's requirement summary in the assembled result. -/
structure RequirementsSummary where
  required_fields : List String
  recommended_fields : List String
  requirement_groups : List RequirementGroup
  kyc_required : Bool
  aml_required : Bool
  wallet_attribution : Bool
  deriving DecidableEq

structure ComplianceResult where
  sumsub_requirements : RequirementsSummary
  counterparty_requirements : RequirementsSummary
  compliance_status : ComplianceStatus
  currency : String
  threshold_met : Bool
  converted_amount : ℚ
  field_analysis : FieldAnalysis
  deriving DecidableEq

/-- Assembly of one side's requirement summary (`|| []` and `|| false`
defaults of the source become `getD`). -/
def summarize (reqs : JurisdictionRequirements) (requiredFields : List String) :
    RequirementsSummary :=
  ⟨requiredFields, reqs.recommended_fields.getD [], reqs.requirements,
   reqs.kyc_required.getD false, reqs.aml_required.getD false,
   reqs.wallet_attribution.getD false⟩

/-- Tier selection: the above-threshold rule set is chosen exactly when
the transfer amount reaches the party's own threshold (inclusive). -/
def selectedReqs (config : CountryConfig) (customerType : CustomerType) (amount : ℚ) :
    JurisdictionRequirements :=
  if decide (config.threshold ≤ amount) then (config.forCustomer customerType).above_threshold
  else (config.forCustomer customerType).below_threshold

/-- The evaluation body run once both configuration entries are found. -/
def evalWithConfigs (sumsubConfig counterpartyConfig : CountryConfig)
    (convertToUSD : ℚ → String → ℚ) (input : TransactionInput) : ComplianceResult :=
  let sumsubReqs := selectedReqs sumsubConfig input.customer_type input.transfer_amount
  let counterpartyReqs :=
    selectedReqs counterpartyConfig input.customer_type input.transfer_amount
  let sumsubExtract := extractRequiredFieldsWithOrLogic sumsubReqs.requirements
  let counterpartyExtract := extractRequiredFieldsWithOrLogic counterpartyReqs.requirements
  let fieldAnalysis := analyzeFieldDifferencesWithOrGroups sumsubExtract.requiredFields
    counterpartyExtract.requiredFields sumsubExtract.orGroups counterpartyExtract.orGroups
    input.transfer_direction
  let complianceStatus := determineComplianceStatus sumsubExtract.requiredFields
    counterpartyExtract.requiredFields input.transfer_direction
  ⟨summarize sumsubReqs sumsubExtract.requiredFields,
   summarize counterpartyReqs counterpartyExtract.requiredFields,
   complianceStatus, sumsubConfig.currency,
   decide (sumsubConfig.threshold ≤ input.transfer_amount),
   convertToUSD input.transfer_amount sumsubConfig.currency, fieldAnalysis⟩

/-- The orchestrator.  The jurisdiction table and the currency
converter are read-only external configuration, passed as parameters;
a missing entry for either country code aborts the evaluation with the
configuration error and no partial result. -/
def calculateCompliance (countryConfigs : String → Option CountryConfig)
    (convertToUSD : ℚ → String → ℚ) (input : TransactionInput) :
    Except String ComplianceResult :=
  match countryConfigs input.sumsub_vasp_country,
      countryConfigs input.counterparty_vasp_country with
  | some sumsubConfig, some counterpartyConfig =>
    .ok (evalWithConfigs sumsubConfig counterpartyConfig convertToUSD input)
  | _, _ => .error ("Invalid country configuration")

/-- A 1:1-matching invariant used while reasoning about the matcher: all
matched fields are claimed on their sides, every match is either a
same-key match or a cross-key semantic match drawn from the two
mandatory sets, and every field key outside the DEU combination pair
occurs in at most one match entry. -/
def MatcherInv (A B : List String) (st : MatchState) : Prop :=
  (∀ m ∈ st.fieldMatches,
    m.sumsubField ∈ st.matchedSumsubFields ∧
      m.counterpartyField ∈ st.matchedCounterpartyFields) ∧
  (∀ m ∈ st.fieldMatches,
    m.sumsubField = m.counterpartyField ∨
      (m.sumsubField ∈ A ∧ m.counterpartyField ∈ B)) ∧
  (∀ f, f ≠ "date_of_birth" → f ≠ "birthplace" → occCount f st.fieldMatches ≤ 1)

/-- Demo rule set used to exercise the orchestrator-level theorems. -/
def demoRuleSet : JurisdictionRequirements :=
  ⟨[⟨["full_name", "wallet_address"], .AND⟩, ⟨deuFields, .OR⟩], none, none, none, none⟩

/-- Demo rule set with the same mandatory fields in another order and no
OR-group. -/
def demoRuleSetAlt : JurisdictionRequirements :=
  ⟨[⟨["wallet_address"], .AND⟩, ⟨["full_name"], .AND⟩], none, none, none, none⟩

def demoConfig : CountryConfig :=
  ⟨"EUR", 1000, ⟨demoRuleSet, demoRuleSet⟩, ⟨demoRuleSet, demoRuleSet⟩⟩

def demoConfigAlt : CountryConfig :=
  ⟨"ZAR", 0, ⟨demoRuleSetAlt, demoRuleSetAlt⟩, ⟨demoRuleSetAlt, demoRuleSetAlt⟩⟩

/-- Demo jurisdiction table with two entries. -/
def demoConfigs : String → Option CountryConfig :=
  fun code => if code = "AA" then some demoConfig
    else if code = "BB" then some demoConfigAlt else none

/-- Demo currency converter (identity). -/
def demoConvert : ℚ → String → ℚ := fun amount _ => amount

def demoInput : TransactionInput := ⟨"AA", "AA", .individual, .OUT, 1500⟩

def demoInputAlt : TransactionInput := ⟨"BB", "BB", .individual, .OUT, 1500⟩

def demoInputBad : TransactionInput := ⟨"AA", "ZZ", .individual, .OUT, 1500⟩

/-- Demo matcher state after pass 2: the counterparty DEU group resolves
to customer_id. -/
def c4DemoState2 : MatchState :=
  ([(("or_group_0"), deuFields)]).foldl (pass2Group ["customer_id"])
    (pass1 ["customer_id"] [])

/-- Demo matcher state after pass 3: the sumsub group with the colliding
identifier is skipped. -/
def c4DemoState3 : MatchState :=
  ([(("or_group_0"), ["x"])]).foldl (pass3Group []) c4DemoState2

/-! Helper lemmas about the set and map primitives. -/

theorem mem_setAdd {l : List String} {x y : String} :
    x ∈ setAdd l y ↔ x ∈ l ∨ x = y := by
  unfold setAdd
  split
  case isTrue h =>
    constructor
    · exact fun hx => Or.inl hx
    · rintro (hx | rfl)
      · exact hx
      · exact h
  case isFalse h =>
    simp [List.mem_append]

theorem mem_setAdd_self {l : List String} {y : String} : y ∈ setAdd l y :=
  mem_setAdd.mpr (Or.inr rfl)

theorem mem_setAdd_of_mem {l : List String} {x : String} (y : String) (hx : x ∈ l) :
    x ∈ setAdd l y :=
  mem_setAdd.mpr (Or.inl hx)

theorem setAdd_nodup {l : List String} (h : l.Nodup) (y : String) : (setAdd l y).Nodup := by
  unfold setAdd
  split
  case isTrue hy => exact h
  case isFalse hy =>
    refine List.Nodup.append h (List.nodup_singleton y) ?_
    intro a ha hay
    rw [List.mem_singleton] at hay
    exact hy (hay ▸ ha)

theorem find?_map_replace {l : List (String × String)} {k v : String}
    (h : l.any (fun p => p.1 == k) = true) :
    (l.map (fun p => if p.1 == k then (k, v) else p)).find? (fun p => p.1 == k) =
      some (k, v) := by
  induction l with
  | nil => simp at h
  | cons p t ih =>
    by_cases hp : (p.1 == k) = true
    · rw [List.map_cons, if_pos hp, List.find?_cons_of_pos _ (by simp)]
    · rw [List.map_cons, if_neg hp,
        List.find?_cons_of_neg (p := fun (x : String × String) => x.1 == k) _ hp]
      apply ih
      simp only [List.any_cons, Bool.or_eq_true] at h
      rcases h with h | h
      · exact absurd h hp
      · exact h

theorem find?_map_replace_ne {l : List (String × String)} {k v q : String} (hq : q ≠ k) :
    (l.map (fun p => if p.1 == k then (k, v) else p)).find? (fun p => p.1 == q) =
      l.find? (fun p => p.1 == q) := by
  induction l with
  | nil => simp
  | cons p t ih =>
    have hkq : ¬(k = q) := fun h => hq h.symm
    by_cases hp : (p.1 == k) = true
    · have hpk : p.1 = k := by simpa using hp
      have hpq : ¬((p.1 == q) = true) := by simp [hpk, hkq]
      rw [List.map_cons, if_pos hp,
        List.find?_cons_of_neg (p := fun (x : String × String) => x.1 == q) _ (by simpa using hkq),
        List.find?_cons_of_neg (p := fun (x : String × String) => x.1 == q) _ hpq, ih]
    · rw [List.map_cons, if_neg hp]
      by_cases hpq : (p.1 == q) = true
      · rw [List.find?_cons_of_pos (p := fun (x : String × String) => x.1 == q) _ hpq,
          List.find?_cons_of_pos (p := fun (x : String × String) => x.1 == q) _ hpq]
      · rw [List.find?_cons_of_neg (p := fun (x : String × String) => x.1 == q) _ hpq,
          List.find?_cons_of_neg (p := fun (x : String × String) => x.1 == q) _ hpq, ih]

theorem lookupRes_setRes_self (l : List (String × String)) (k v : String) :
    lookupRes (setRes l k v) k = some v := by
  unfold lookupRes setRes
  split
  case isTrue h => rw [find?_map_replace h]; rfl
  case isFalse h =>
    have hnone : l.find? (fun p => p.1 == k) = none := by
      rw [List.find?_eq_none]
      intro p hp hpk
      exact h (List.any_eq_true.mpr ⟨p, hp, hpk⟩)
    rw [List.find?_append, hnone, Option.none_or, List.find?_cons_of_pos _ (by simp)]
    rfl

theorem lookupRes_setRes_ne {l : List (String × String)} {k q : String} (v : String)
    (hq : q ≠ k) : lookupRes (setRes l k v) q = lookupRes l q := by
  unfold lookupRes setRes
  split
  case isTrue h => rw [find?_map_replace_ne hq]
  case isFalse h =>
    rw [List.find?_append,
      List.find?_cons_of_neg (p := fun (x : String × String) => x.1 == q) _
        (by simpa using fun h => hq (Eq.symm h))]
    cases l.find? (fun p => p.1 == q) <;> rfl

theorem setRes_keys {l : List (String × String)} {k v : String} {p : String × String}
    (hp : p ∈ setRes l k v) : p.1 = k ∨ p ∈ l := by
  unfold setRes at hp
  split at hp
  case isTrue h =>
    rcases List.mem_map.mp hp with ⟨q, hq, hqe⟩
    by_cases hqk : (q.1 == k) = true
    · rw [if_pos hqk] at hqe
      exact Or.inl (by rw [← hqe])
    · rw [if_neg hqk] at hqe
      exact Or.inr (hqe ▸ hq)
  case isFalse h =>
    rcases List.mem_append.mp hp with hp | hp
    · exact Or.inr hp
    · rw [List.mem_singleton] at hp
      exact Or.inl (by rw [hp])

/-! The pass 3 body is the pass 2 body applied to the counterparty
mandatory set. -/

theorem pass3Group_eq_pass2Group (counterpartyFields : List String) :
    pass3Group counterpartyFields = pass2Group counterpartyFields := rfl

/-! Generic fold invariants. -/

theorem foldl_inv {α β : Type} {P : β → Prop} {f : β → α → β} {l : List α}
    (h : ∀ b a, a ∈ l → P b → P (f b a)) : ∀ b, P b → P (l.foldl f b) := by
  induction l with
  | nil => exact fun b hb => hb
  | cons a t ih =>
    intro b hb
    exact ih (fun b x hx => h b x (List.mem_cons_of_mem a hx)) _
      (h b a (List.mem_cons_self a t) hb)

/-! Membership facts about the DEU group predicate. -/

theorem deuFields_nonempty : ∀ f ∈ deuFields, f ≠ "" := by decide

theorem isDeu_mem {fs : List String} (h : isDeuOrGroup fs = true) {f : String}
    (hf : f ∈ fs) : f ∈ deuFields := by
  unfold isDeuOrGroup at h
  simp only [Bool.and_eq_true, decide_eq_true_eq] at h
  obtain ⟨⟨⟨⟨hlen, h1⟩, h2⟩, h3⟩, h4⟩ := h
  have hsub : deuFields.toFinset ⊆ fs.toFinset := by
    intro x hx
    rw [List.mem_toFinset]
    fin_cases hx <;> assumption
  have hcard : fs.toFinset.card ≤ deuFields.toFinset.card := by
    calc fs.toFinset.card ≤ fs.length := fs.toFinset_card_le
    _ = 4 := hlen
    _ = deuFields.toFinset.card := by decide
  have : deuFields.toFinset = fs.toFinset := Finset.eq_of_subset_of_card_le hsub hcard
  have : f ∈ deuFields.toFinset := this ▸ List.mem_toFinset.mpr hf
  exact List.mem_toFinset.mp this

/-! Shape of one pass 2 / pass 3 group step: it is the identity, a
single-field resolution, a DEU combination, or a combination on top of
a single-field resolution (only reachable with degenerate field keys). -/

theorem pass2Group_shape (A : List String) (st : MatchState) (g : String × List String) :
    pass2Group A st g = st ∨
    (∃ f, f ∈ g.2 ∧ pass2Group A st g = addOrMatch st g.1 f) ∨
    pass2Group A st g = applyDeuCombination st g.1 ∨
    (∃ f, f ∈ g.2 ∧ pass2Group A st g = applyDeuCombination (addOrMatch st g.1 f) g.1) := by
  unfold pass2Group
  split
  · exact Or.inl rfl
  · unfold orGroupCombination orGroupScan
    cases hf : g.2.find? (fun f => decide (f ∈ A ∧ f ∉ st.matchedSumsubFields)) with
    | none =>
      split
      · split
        · exact Or.inr (Or.inr (Or.inl rfl))
        · exact Or.inl rfl
      · exact Or.inl rfl
    | some f =>
      have hfm : f ∈ g.2 := List.mem_of_find?_eq_some hf
      split
      · split
        · exact Or.inr (Or.inr (Or.inr ⟨f, hfm, rfl⟩))
        · exact Or.inr (Or.inl ⟨f, hfm, rfl⟩)
      · exact Or.inr (Or.inl ⟨f, hfm, rfl⟩)

theorem pass3GroupSpec_shape (B : List String) (st : MatchState) (g : String × List String) :
    pass3GroupSpec B st g = st ∨
    (∃ f, f ∈ g.2 ∧ pass3GroupSpec B st g = addOrMatch st g.1 f) ∨
    pass3GroupSpec B st g = applyDeuCombination st g.1 ∨
    (∃ f, f ∈ g.2 ∧ pass3GroupSpec B st g = applyDeuCombination (addOrMatch st g.1 f) g.1) := by
  unfold pass3GroupSpec
  split
  · exact Or.inl rfl
  · unfold orGroupCombination orGroupScanSpec
    cases hf : g.2.find? (fun f => decide (f ∈ B ∧ f ∉ st.matchedCounterpartyFields)) with
    | none =>
      split
      · split
        · exact Or.inr (Or.inr (Or.inl rfl))
        · exact Or.inl rfl
      · exact Or.inl rfl
    | some f =>
      have hfm : f ∈ g.2 := List.mem_of_find?_eq_some hf
      split
      · split
        · exact Or.inr (Or.inr (Or.inr ⟨f, hfm, rfl⟩))
        · exact Or.inr (Or.inl ⟨f, hfm, rfl⟩)
      · exact Or.inr (Or.inl ⟨f, hfm, rfl⟩)

/-! Atomic updates: claimed-set equality, monotonicity, match-list
extension, resolution-map framing. -/

theorem addOrMatch_claims_eq {st : MatchState} (h : st.matchedSumsubFields = st.matchedCounterpartyFields) (gid f : String) :
    (addOrMatch st gid f).matchedSumsubFields = (addOrMatch st gid f).matchedCounterpartyFields := by
  simp [addOrMatch, h]

theorem applyDeu_claims_eq {st : MatchState} (h : st.matchedSumsubFields = st.matchedCounterpartyFields) (gid : String) :
    (applyDeuCombination st gid).matchedSumsubFields = (applyDeuCombination st gid).matchedCounterpartyFields := by
  simp [applyDeuCombination, h]

theorem pass2Group_claims_eq (A : List String) (st : MatchState) (g : String × List String)
    (h : st.matchedSumsubFields = st.matchedCounterpartyFields) :
    (pass2Group A st g).matchedSumsubFields = (pass2Group A st g).matchedCounterpartyFields := by
  rcases pass2Group_shape A st g with he | ⟨f, _, he⟩ | he | ⟨f, _, he⟩ <;> rw [he]
  · exact h
  · exact addOrMatch_claims_eq h g.1 f
  · exact applyDeu_claims_eq h g.1
  · exact applyDeu_claims_eq (addOrMatch_claims_eq h g.1 f) g.1

theorem pass2Group_mS_mono (A : List String) (st : MatchState) (g : String × List String)
    {x : String} (hx : x ∈ st.matchedSumsubFields) :
    x ∈ (pass2Group A st g).matchedSumsubFields := by
  rcases pass2Group_shape A st g with he | ⟨f, hf, he⟩ | he | ⟨f, hf, he⟩
  · rw [he]; exact hx
  · rw [he]; exact mem_setAdd_of_mem f hx
  · rw [he]; exact mem_setAdd_of_mem _ (mem_setAdd_of_mem _ hx)
  · rw [he]; exact mem_setAdd_of_mem _ (mem_setAdd_of_mem _ (mem_setAdd_of_mem f hx))

theorem pass2Group_mC_mono (A : List String) (st : MatchState) (g : String × List String)
    {x : String} (hx : x ∈ st.matchedCounterpartyFields) :
    x ∈ (pass2Group A st g).matchedCounterpartyFields := by
  rcases pass2Group_shape A st g with he | ⟨f, hf, he⟩ | he | ⟨f, hf, he⟩
  · rw [he]; exact hx
  · rw [he]; exact mem_setAdd_of_mem f hx
  · rw [he]; exact mem_setAdd_of_mem _ (mem_setAdd_of_mem _ hx)
  · rw [he]; exact mem_setAdd_of_mem _ (mem_setAdd_of_mem _ (mem_setAdd_of_mem f hx))

theorem pass2Group_matches_extend (A : List String) (st : MatchState)
    (g : String × List String) :
    ∃ ms, (pass2Group A st g).fieldMatches = st.fieldMatches ++ ms ∧
      ∀ m ∈ ms, m.orGroupId = some g.1 := by
  rcases pass2Group_shape A st g with he | ⟨f, hf, he⟩ | he | ⟨f, hf, he⟩
  · refine ⟨[], by rw [he, List.append_nil], ?_⟩
    intro m hm
    exact absurd hm (List.not_mem_nil m)
  · refine ⟨[⟨f, f, true, some true, some g.1⟩], by rw [he]; rfl, ?_⟩
    intro m hm
    rw [List.mem_singleton] at hm
    rw [hm]
  · refine ⟨[⟨("date_of_birth"), ("date_of_birth"), true, some true, some g.1⟩,
      ⟨("birthplace"), ("birthplace"), true, some true, some g.1⟩], by rw [he]; rfl, ?_⟩
    intro m hm
    rcases List.mem_cons.mp hm with hm | hm
    · rw [hm]
    · rw [List.mem_singleton] at hm
      rw [hm]
  · refine ⟨[⟨f, f, true, some true, some g.1⟩,
      ⟨("date_of_birth"), ("date_of_birth"), true, some true, some g.1⟩,
      ⟨("birthplace"), ("birthplace"), true, some true, some g.1⟩], ?_, ?_⟩
    · rw [he]
      show (st.fieldMatches ++ [⟨f, f, true, some true, some g.1⟩]) ++ _ = _
      rw [List.append_assoc]
      rfl
    · intro m hm
      rcases List.mem_cons.mp hm with hm | hm
      · rw [hm]
      · rcases List.mem_cons.mp hm with hm | hm
        · rw [hm]
        · rw [List.mem_singleton] at hm
          rw [hm]

theorem pass2Group_lookup_frame (A : List String) (st : MatchState)
    (g : String × List String) {q : String} (hq : q ≠ g.1) :
    lookupRes (pass2Group A st g).orGroupMatches q = lookupRes st.orGroupMatches q := by
  rcases pass2Group_shape A st g with he | ⟨f, hf, he⟩ | he | ⟨f, hf, he⟩
  · rw [he]
  · rw [he]
    exact lookupRes_setRes_ne f hq
  · rw [he]
    exact lookupRes_setRes_ne _ hq
  · rw [he]
    show lookupRes (setRes (setRes st.orGroupMatches g.1 f) g.1
      ("date_of_birth + birthplace")) q = _
    rw [lookupRes_setRes_ne _ hq, lookupRes_setRes_ne f hq]

/-! Pass 1 lemmas. -/

theorem pass1Step_claims_eq (B : List String) (st : MatchState) (f : String)
    (h : st.matchedSumsubFields = st.matchedCounterpartyFields) :
    (pass1Step B st f).matchedSumsubFields = (pass1Step B st f).matchedCounterpartyFields := by
  unfold pass1Step
  split
  · simpa using congrArg (fun l => setAdd l f) h
  · exact h

theorem pass1_claims_eq (A B : List String) :
    (pass1 A B).matchedSumsubFields = (pass1 A B).matchedCounterpartyFields :=
  foldl_inv (fun st f _ h => pass1Step_claims_eq B st f h) initState rfl

theorem pass1Step_mS_mono (B : List String) (st : MatchState) (f : String) {x : String}
    (hx : x ∈ st.matchedSumsubFields) : x ∈ (pass1Step B st f).matchedSumsubFields := by
  unfold pass1Step
  split
  · exact mem_setAdd_of_mem f hx
  · exact hx

theorem pass1Step_mC_mono (B : List String) (st : MatchState) (f : String) {x : String}
    (hx : x ∈ st.matchedCounterpartyFields) :
    x ∈ (pass1Step B st f).matchedCounterpartyFields := by
  unfold pass1Step
  split
  · exact mem_setAdd_of_mem f hx
  · exact hx

theorem pass1_aux_mS_mem (B : List String) {x : String} (hxB : x ∈ B) :
    ∀ (l : List String) (st : MatchState), x ∈ l →
      x ∈ (l.foldl (pass1Step B) st).matchedSumsubFields := by
  intro l
  induction l with
  | nil => exact fun st hx => absurd hx (List.not_mem_nil x)
  | cons a t ih =>
    intro st hx
    rw [List.foldl_cons]
    rcases List.mem_cons.mp hx with rfl | hx
    · have hst : x ∈ (pass1Step B st x).matchedSumsubFields := by
        unfold pass1Step
        rw [if_pos hxB]
        exact mem_setAdd_self
      exact foldl_inv (fun st f _ h => pass1Step_mS_mono B st f h) _ hst
    · exact ih _ hx

theorem pass1_inter_mS (A B : List String) {x : String} (hxA : x ∈ A) (hxB : x ∈ B) :
    x ∈ (pass1 A B).matchedSumsubFields :=
  pass1_aux_mS_mem B hxB A initState hxA

theorem pass1_inter_mC (A B : List String) {x : String} (hxA : x ∈ A) (hxB : x ∈ B) :
    x ∈ (pass1 A B).matchedCounterpartyFields :=
  pass1_claims_eq A B ▸ pass1_inter_mS A B hxA hxB

theorem pass1_orGroupMatches (A B : List String) : (pass1 A B).orGroupMatches = [] := by
  refine foldl_inv (P := fun st => st.orGroupMatches = []) ?_ initState rfl
  intro st f _ h
  unfold pass1Step
  split
  · exact h
  · exact h

theorem pass1_matches_plain (A B : List String) :
    ∀ m ∈ (pass1 A B).fieldMatches,
      m.orGroupId = none ∧ m.sumsubField = m.counterpartyField := by
  refine foldl_inv
    (P := fun st => ∀ m ∈ st.fieldMatches,
      m.orGroupId = none ∧ m.sumsubField = m.counterpartyField) ?_ initState ?_
  · intro st f _ h
    unfold pass1Step
    split
    · intro m hm
      rcases List.mem_append.mp hm with hm | hm
      · exact h m hm
      · rw [List.mem_singleton] at hm
        rw [hm]
        exact ⟨rfl, rfl⟩
    · exact h
  · intro m hm
    exact absurd hm (List.not_mem_nil m)

/-! Pass 2 / pass 3 fold lemmas. -/

theorem pass2Fold_claims_eq (A : List String) (l : List (String × List String))
    (st : MatchState) (h : st.matchedSumsubFields = st.matchedCounterpartyFields) :
    (l.foldl (pass2Group A) st).matchedSumsubFields =
      (l.foldl (pass2Group A) st).matchedCounterpartyFields :=
  foldl_inv (fun st g _ h => pass2Group_claims_eq A st g h) st h

theorem pass2Fold_mS_mono (A : List String) (l : List (String × List String))
    (st : MatchState) {x : String} (hx : x ∈ st.matchedSumsubFields) :
    x ∈ (l.foldl (pass2Group A) st).matchedSumsubFields :=
  foldl_inv (fun st g _ h => pass2Group_mS_mono A st g h) st hx

theorem pass2Fold_mC_mono (A : List String) (l : List (String × List String))
    (st : MatchState) {x : String} (hx : x ∈ st.matchedCounterpartyFields) :
    x ∈ (l.foldl (pass2Group A) st).matchedCounterpartyFields :=
  foldl_inv (fun st g _ h => pass2Group_mC_mono A st g h) st hx

theorem pass2Fold_lookup_frame (A : List String) (l : List (String × List String))
    (st : MatchState) {q : String} (hq : ∀ p ∈ l, p.1 ≠ q) :
    lookupRes (l.foldl (pass2Group A) st).orGroupMatches q =
      lookupRes st.orGroupMatches q := by
  refine foldl_inv
    (P := fun s => lookupRes s.orGroupMatches q = lookupRes st.orGroupMatches q) ?_ st rfl
  intro s g hg h
  rw [pass2Group_lookup_frame A s g (fun he => hq g hg he.symm), h]

theorem pass2Fold_matches_extend (A : List String) (l : List (String × List String))
    (st : MatchState) :
    ∃ ms, (l.foldl (pass2Group A) st).fieldMatches = st.fieldMatches ++ ms ∧
      ∀ m ∈ ms, ∃ p, p ∈ l ∧ m.orGroupId = some p.1 := by
  induction l generalizing st with
  | nil =>
    refine ⟨[], by simp, ?_⟩
    intro m hm
    exact absurd hm (List.not_mem_nil m)
  | cons g t ih =>
    rw [List.foldl_cons]
    obtain ⟨ms1, h1, h1p⟩ := pass2Group_matches_extend A st g
    obtain ⟨ms2, h2, h2p⟩ := ih (pass2Group A st g)
    refine ⟨ms1 ++ ms2, ?_, ?_⟩
    · rw [h2, h1, List.append_assoc]
    · intro m hm
      rcases List.mem_append.mp hm with hm | hm
      · exact ⟨g, List.mem_cons_self g t, h1p m hm⟩
      · obtain ⟨p, hp, hpe⟩ := h2p m hm
        exact ⟨p, List.mem_cons_of_mem g hp, hpe⟩

/-! Pass 4 lemmas. -/

theorem findSemanticMatches_shape (A B : List String) :
    ∀ m ∈ findSemanticMatches A B,
      m.sumsubField ∈ A ∧ m.counterpartyField ∈ B ∧
      m.counterpartyField ∈ semanticAliases m.sumsubField ∧
      m.isExactMatch = false ∧ m.isOrGroupMatch = none ∧ m.orGroupId = none := by
  intro m hm
  unfold findSemanticMatches at hm
  rcases List.mem_flatMap.mp hm with ⟨s, hs, hms⟩
  rcases List.mem_map.mp hms with ⟨c, hc, hme⟩
  rw [List.mem_filter] at hc
  subst hme
  exact ⟨hs, by simpa using hc.2, hc.1, rfl, rfl, rfl⟩

theorem pass4Step_orGroupMatches (st : MatchState) (m : FieldMatch) :
    (pass4Step st m).orGroupMatches = st.orGroupMatches := by
  unfold pass4Step
  split
  · rfl
  · rfl

theorem pass4Fold_orGroupMatches (l : List FieldMatch) (st : MatchState) :
    (l.foldl pass4Step st).orGroupMatches = st.orGroupMatches := by
  refine foldl_inv (P := fun s => s.orGroupMatches = st.orGroupMatches) ?_ st rfl
  intro s m _ h
  rw [pass4Step_orGroupMatches, h]

theorem pass4Step_matches_extend (st : MatchState) (m : FieldMatch) :
    (pass4Step st m).fieldMatches = st.fieldMatches ∨
      (pass4Step st m).fieldMatches = st.fieldMatches ++ [m] := by
  unfold pass4Step
  split
  · exact Or.inr rfl
  · exact Or.inl rfl

theorem pass4Fold_matches_extend (l : List FieldMatch) (st : MatchState) :
    ∃ ms, (l.foldl pass4Step st).fieldMatches = st.fieldMatches ++ ms ∧
      ∀ m ∈ ms, m ∈ l := by
  induction l generalizing st with
  | nil =>
    refine ⟨[], by simp, ?_⟩
    intro m hm
    exact absurd hm (List.not_mem_nil m)
  | cons a t ih =>
    rw [List.foldl_cons]
    obtain ⟨ms2, h2, h2p⟩ := ih (pass4Step st a)
    rcases pass4Step_matches_extend st a with h1 | h1
    · refine ⟨ms2, by rw [h2, h1], ?_⟩
      intro m hm
      exact List.mem_cons_of_mem a (h2p m hm)
    · refine ⟨a :: ms2, by rw [h2, h1]; simp, ?_⟩
      intro m hm
      rcases List.mem_cons.mp hm with rfl | hm
      · exact List.mem_cons_self m t
      · exact List.mem_cons_of_mem a (h2p m hm)

/-! Pass 3 agrees with its specification-worded variant whenever the two
claimed sets coincide, which they do after passes 1 and 2. -/

theorem pass3Group_eq_spec (B : List String) (st : MatchState) (g : String × List String)
    (h : st.matchedSumsubFields = st.matchedCounterpartyFields) :
    pass3Group B st g = pass3GroupSpec B st g := by
  unfold pass3Group pass3GroupSpec orGroupScan orGroupScanSpec
  rw [h]

theorem pass3GroupSpec_claims_eq (B : List String) (st : MatchState)
    (g : String × List String)
    (h : st.matchedSumsubFields = st.matchedCounterpartyFields) :
    (pass3GroupSpec B st g).matchedSumsubFields =
      (pass3GroupSpec B st g).matchedCounterpartyFields := by
  rw [← pass3Group_eq_spec B st g h, pass3Group_eq_pass2Group]
  exact pass2Group_claims_eq B st g h

theorem pass3Fold_eq_spec (B : List String) (l : List (String × List String))
    (st : MatchState) (h : st.matchedSumsubFields = st.matchedCounterpartyFields) :
    l.foldl (pass3Group B) st = l.foldl (pass3GroupSpec B) st := by
  induction l generalizing st with
  | nil => rfl
  | cons g t ih =>
    rw [List.foldl_cons, List.foldl_cons, pass3Group_eq_spec B st g h]
    exact ih (pass3GroupSpec B st g) (pass3GroupSpec_claims_eq B st g h)

/-! Orchestrator reduction lemmas. -/

theorem calculateCompliance_some_some {configs : String → Option CountryConfig}
    {conv : ℚ → String → ℚ} {input : TransactionInput} {cfgS cfgC : CountryConfig}
    (hS : configs input.sumsub_vasp_country = some cfgS)
    (hC : configs input.counterparty_vasp_country = some cfgC) :
    calculateCompliance configs conv input =
      Except.ok (evalWithConfigs cfgS cfgC conv input) := by
  unfold calculateCompliance
  rw [hS, hC]

theorem calculateCompliance_none_left {configs : String → Option CountryConfig}
    {conv : ℚ → String → ℚ} {input : TransactionInput}
    (hS : configs input.sumsub_vasp_country = none) :
    calculateCompliance configs conv input =
      Except.error ("Invalid country configuration") := by
  unfold calculateCompliance
  rw [hS]

theorem calculateCompliance_none_right {configs : String → Option CountryConfig}
    {conv : ℚ → String → ℚ} {input : TransactionInput}
    (hC : configs input.counterparty_vasp_country = none) :
    calculateCompliance configs conv input =
      Except.error ("Invalid country configuration") := by
  unfold calculateCompliance
  rw [hC]
  cases hS : configs input.sumsub_vasp_country <;> rfl

theorem evalWithConfigs_threshold_met (cfgS cfgC : CountryConfig) (conv : ℚ → String → ℚ)
    (input : TransactionInput) :
    (evalWithConfigs cfgS cfgC conv input).threshold_met =
      decide (cfgS.threshold ≤ input.transfer_amount) := rfl

theorem evalWithConfigs_status (cfgS cfgC : CountryConfig) (conv : ℚ → String → ℚ)
    (input : TransactionInput) :
    (evalWithConfigs cfgS cfgC conv input).compliance_status =
      determineComplianceStatus
        (extractRequiredFieldsWithOrLogic
          (selectedReqs cfgS input.customer_type input.transfer_amount).requirements).requiredFields
        (extractRequiredFieldsWithOrLogic
          (selectedReqs cfgC input.customer_type input.transfer_amount).requirements).requiredFields
        input.transfer_direction := rfl

theorem evalWithConfigs_sumsub_required (cfgS cfgC : CountryConfig)
    (conv : ℚ → String → ℚ) (input : TransactionInput) :
    (evalWithConfigs cfgS cfgC conv input).sumsub_requirements.required_fields =
      (extractRequiredFieldsWithOrLogic
        (selectedReqs cfgS input.customer_type input.transfer_amount).requirements).requiredFields := rfl

theorem evalWithConfigs_cp_required (cfgS cfgC : CountryConfig)
    (conv : ℚ → String → ℚ) (input : TransactionInput) :
    (evalWithConfigs cfgS cfgC conv input).counterparty_requirements.required_fields =
      (extractRequiredFieldsWithOrLogic
        (selectedReqs cfgC input.customer_type input.transfer_amount).requirements).requiredFields := rfl

theorem evalWithConfigs_sumsub_groups (cfgS cfgC : CountryConfig)
    (conv : ℚ → String → ℚ) (input : TransactionInput) :
    (evalWithConfigs cfgS cfgC conv input).sumsub_requirements.requirement_groups =
      (selectedReqs cfgS input.customer_type input.transfer_amount).requirements := rfl

theorem evalWithConfigs_cp_groups (cfgS cfgC : CountryConfig)
    (conv : ℚ → String → ℚ) (input : TransactionInput) :
    (evalWithConfigs cfgS cfgC conv input).counterparty_requirements.requirement_groups =
      (selectedReqs cfgC input.customer_type input.transfer_amount).requirements := rfl

/-! Extraction facts. -/

theorem extract_requiredFields_nodup (reqs : List RequirementGroup) :
    (extractRequiredFieldsWithOrLogic reqs).requiredFields.Nodup := by
  unfold extractRequiredFieldsWithOrLogic
  refine foldl_inv (P := fun acc : Extracted × Nat => acc.1.requiredFields.Nodup) ?_ _
    List.nodup_nil
  intro acc g _ h
  unfold extractStep
  cases g.logic
  · exact foldl_inv (P := fun l : List String => l.Nodup)
      (fun l x _ hl => setAdd_nodup hl x) _ h
  · exact h

/-! The classifier respects set semantics of duplicate-free field lists. -/

theorem determine_respects_sets {A1 B1 A2 B2 : List String}
    (hA1 : A1.Nodup) (hA2 : A2.Nodup) (hB1 : B1.Nodup) (hB2 : B2.Nodup)
    (hA : ∀ x, x ∈ A1 ↔ x ∈ A2) (hB : ∀ x, x ∈ B1 ↔ x ∈ B2) (d : TransferDirection) :
    determineComplianceStatus A1 B1 d = determineComplianceStatus A2 B2 d := by
  have hlenA : A1.length = A2.length :=
    ((List.perm_ext_iff_of_nodup hA1 hA2).mpr hA).length_eq
  have hlenB : B1.length = B2.length :=
    ((List.perm_ext_iff_of_nodup hB1 hB2).mpr hB).length_eq
  have h1 : (∀ f ∈ B1, f ∈ A1) ↔ (∀ f ∈ B2, f ∈ A2) :=
    ⟨fun h f hf => (hA f).mp (h f ((hB f).mpr hf)),
     fun h f hf => (hA f).mpr (h f ((hB f).mp hf))⟩
  have h2 : (∀ f ∈ A1, f ∈ B1) ↔ (∀ f ∈ A2, f ∈ B2) :=
    ⟨fun h f hf => (hB f).mp (h f ((hA f).mpr hf)),
     fun h f hf => (hB f).mpr (h f ((hA f).mp hf))⟩
  unfold determineComplianceStatus
  rw [show decide (∀ f ∈ B1, f ∈ A1) = decide (∀ f ∈ B2, f ∈ A2) from
      decide_eq_decide.mpr h1,
    show decide (∀ f ∈ A1, f ∈ B1) = decide (∀ f ∈ A2, f ∈ B2) from
      decide_eq_decide.mpr h2,
    hlenA, hlenB]

/-! Claim C7. -/

/-- C7 counterexample: on the rule-set [AND a b, OR c d, AND b e, OR f g]
the extractor's OR-group identifiers are `or_group_0` and `or_group_1`,
not `group_0` and `group_1` as the claim has it: the identifier list is
[or_group_0, or_group_1] and no identifier equals `group_0`. -/
theorem c7_counterexample :
    ((extractRequiredFieldsWithOrLogic
      [⟨["a", "b"], .AND⟩, ⟨["c", "d"], .OR⟩, ⟨["b", "e"], .AND⟩,
       ⟨["f", "g"], .OR⟩]).orGroups.map Prod.fst = ["or_group_0", "or_group_1"]) ∧
    ("group_0") ∉ (extractRequiredFieldsWithOrLogic
      [⟨["a", "b"], .AND⟩, ⟨["c", "d"], .OR⟩, ⟨["b", "e"], .AND⟩,
       ⟨["f", "g"], .OR⟩]).orGroups.map Prod.fst := by
  decide

/-- C7 amended: for groups [AND a b, OR c d, AND b e, OR f g] (with a, b
distinct and e new), the mandatory fields are [a, b, e] in first-appearance
order with the duplicate b dropped, and exactly two OR-groups are produced,
with identifiers of the form `or_group_<n>`: or_group_0 = [c, d] and
or_group_1 = [f, g]; AND groups consume no identifier and OR-group fields
never enter the mandatory set. -/
theorem c7_extraction_ordering (a b c d e f g : String)
    (hba : b ≠ a) (hea : e ≠ a) (heb : e ≠ b) :
    extractRequiredFieldsWithOrLogic
      [⟨[a, b], .AND⟩, ⟨[c, d], .OR⟩, ⟨[b, e], .AND⟩, ⟨[f, g], .OR⟩] =
      ⟨[a, b, e], [(("or_group_0"), [c, d]), (("or_group_1"), [f, g])]⟩ := by
  have h1 : setAdd ([] : List String) a = [a] := rfl
  have h2 : setAdd [a] b = [a, b] := by
    unfold setAdd
    rw [if_neg (by simp [hba])]
    rfl
  have h3 : setAdd [a, b] b = [a, b] := by
    unfold setAdd
    rw [if_pos (by simp)]
  have h4 : setAdd [a, b] e = [a, b, e] := by
    unfold setAdd
    rw [if_neg (by simp [hea, heb])]
    rfl
  unfold extractRequiredFieldsWithOrLogic
  simp only [List.foldl_cons, List.foldl_nil]
  unfold extractStep
  dsimp only
  simp only [List.foldl_cons, List.foldl_nil]
  rw [h1, h2, h3, h4]
  rfl

/-- C7 witness: the amended theorem at concrete distinct field keys. -/
theorem c7_witness :
    extractRequiredFieldsWithOrLogic
      [⟨["a", "b"], .AND⟩, ⟨["c", "d"], .OR⟩, ⟨["b", "e"], .AND⟩,
       ⟨["f", "g"], .OR⟩] =
      ⟨["a", "b", "e"],
       [(("or_group_0"), ["c", "d"]), (("or_group_1"), ["f", "g"])]⟩ :=
  c7_extraction_ordering ("a") ("b") ("c") ("d") ("e") ("f") ("g")
    (by decide) (by decide) (by decide)

/-! Claim C8. -/

/-- C8: the orchestrator fails with the configuration-lookup error
exactly when the origin or the counterparty country code has no entry in
the jurisdiction table, and on failure nothing else is produced; when
both codes are present it returns the complete evaluation result and no
error. -/
theorem c8_config_lookup (configs : String → Option CountryConfig)
    (conv : ℚ → String → ℚ) (input : TransactionInput) :
    (calculateCompliance configs conv input =
        Except.error ("Invalid country configuration") ↔
      configs input.sumsub_vasp_country = none ∨
        configs input.counterparty_vasp_country = none) ∧
    (∀ cfgS cfgC, configs input.sumsub_vasp_country = some cfgS →
      configs input.counterparty_vasp_country = some cfgC →
      calculateCompliance configs conv input =
        Except.ok (evalWithConfigs cfgS cfgC conv input)) := by
  constructor
  · constructor
    · intro h
      by_contra hc
      push_neg at hc
      obtain ⟨h1, h2⟩ := hc
      obtain ⟨cfgS, hS⟩ := Option.ne_none_iff_exists'.mp h1
      obtain ⟨cfgC, hC⟩ := Option.ne_none_iff_exists'.mp h2
      rw [calculateCompliance_some_some hS hC] at h
      exact Except.noConfusion h
    · rintro (h | h)
      · exact calculateCompliance_none_left h
      · exact calculateCompliance_none_right h
  · intro cfgS cfgC hS hC
    exact calculateCompliance_some_some hS hC

/-- C8 witness: with the demo table, an input whose two codes are present
evaluates to a complete result, and an input with an unknown counterparty
code fails with the configuration error. -/
theorem c8_witness :
    (calculateCompliance demoConfigs demoConvert demoInput).isOk = true ∧
    calculateCompliance demoConfigs demoConvert demoInputBad =
      Except.error ("Invalid country configuration") := by
  constructor
  · rw [(c8_config_lookup demoConfigs demoConvert demoInput).2 demoConfig demoConfig
      rfl rfl]
    rfl
  · exact (c8_config_lookup demoConfigs demoConvert demoInputBad).1.mpr (Or.inr rfl)

/-! Claim C9. -/

/-- C9: tier selection is inclusive and per side — each party's
above-threshold rule set is selected exactly when the amount reaches that
party's own threshold — and the threshold_met flag equals the origin
side's comparison only (a zero threshold makes every non-negative amount
"above"). -/
theorem c9_threshold_selection (configs : String → Option CountryConfig)
    (conv : ℚ → String → ℚ) (input : TransactionInput) (cfgS cfgC : CountryConfig)
    (hS : configs input.sumsub_vasp_country = some cfgS)
    (hC : configs input.counterparty_vasp_country = some cfgC) :
    ∃ r, calculateCompliance configs conv input = Except.ok r ∧
      r.threshold_met = decide (cfgS.threshold ≤ input.transfer_amount) ∧
      (cfgS.threshold ≤ input.transfer_amount →
        r.sumsub_requirements.requirement_groups =
          ((cfgS.forCustomer input.customer_type).above_threshold).requirements) ∧
      (¬ cfgS.threshold ≤ input.transfer_amount →
        r.sumsub_requirements.requirement_groups =
          ((cfgS.forCustomer input.customer_type).below_threshold).requirements) ∧
      (cfgC.threshold ≤ input.transfer_amount →
        r.counterparty_requirements.requirement_groups =
          ((cfgC.forCustomer input.customer_type).above_threshold).requirements) ∧
      (¬ cfgC.threshold ≤ input.transfer_amount →
        r.counterparty_requirements.requirement_groups =
          ((cfgC.forCustomer input.customer_type).below_threshold).requirements) ∧
      (cfgS.threshold = 0 → 0 ≤ input.transfer_amount → r.threshold_met = true) := by
  refine ⟨evalWithConfigs cfgS cfgC conv input, calculateCompliance_some_some hS hC,
    evalWithConfigs_threshold_met cfgS cfgC conv input, ?_, ?_, ?_, ?_, ?_⟩
  · intro h
    rw [evalWithConfigs_sumsub_groups]
    unfold selectedReqs
    rw [if_pos (by simpa using h)]
  · intro h
    rw [evalWithConfigs_sumsub_groups]
    unfold selectedReqs
    rw [if_neg (by simpa using h)]
  · intro h
    rw [evalWithConfigs_cp_groups]
    unfold selectedReqs
    rw [if_pos (by simpa using h)]
  · intro h
    rw [evalWithConfigs_cp_groups]
    unfold selectedReqs
    rw [if_neg (by simpa using h)]
  · intro h0 hamt
    rw [evalWithConfigs_threshold_met, h0]
    simpa using hamt

/-- C9 witness: at the demo configuration (threshold 1000, amount 1500)
the returned threshold_met flag is true. -/
theorem c9_witness :
    (calculateCompliance demoConfigs demoConvert demoInput).toOption.map
      ComplianceResult.threshold_met = some true := by
  obtain ⟨r, hr, hthr, _, _, _, _, _⟩ :=
    c9_threshold_selection demoConfigs demoConvert demoInput demoConfig demoConfig rfl rfl
  rw [hr]
  show some r.threshold_met = some true
  rw [hthr]
  norm_num [demoConfig, demoInput]

/-! Claim C5. -/

theorem calculateCompliance_ok_inv {configs : String → Option CountryConfig}
    {conv : ℚ → String → ℚ} {input : TransactionInput} {r : ComplianceResult}
    (h : calculateCompliance configs conv input = Except.ok r) :
    ∃ cfgS cfgC, configs input.sumsub_vasp_country = some cfgS ∧
      configs input.counterparty_vasp_country = some cfgC ∧
      r = evalWithConfigs cfgS cfgC conv input := by
  cases hS : configs input.sumsub_vasp_country with
  | none =>
    rw [calculateCompliance_none_left hS] at h
    exact Except.noConfusion h
  | some cfgS =>
    cases hC : configs input.counterparty_vasp_country with
    | none =>
      rw [calculateCompliance_none_right hC] at h
      exact Except.noConfusion h
    | some cfgC =>
      rw [calculateCompliance_some_some hS hC] at h
      injection h with h
      exact ⟨cfgS, cfgC, rfl, rfl, h.symm⟩

/-- C5: the classification is a function of the two mandatory (AND) field
sets and the transfer direction alone — two successful evaluations whose
mandatory sets agree as sets and whose directions agree yield the same
classification, whatever their OR-group tables, resolutions and semantic
matches are. -/
theorem c5_classification_hyperproperty
    (configs1 configs2 : String → Option CountryConfig)
    (conv1 conv2 : ℚ → String → ℚ) (in1 in2 : TransactionInput)
    (r1 r2 : ComplianceResult)
    (h1 : calculateCompliance configs1 conv1 in1 = Except.ok r1)
    (h2 : calculateCompliance configs2 conv2 in2 = Except.ok r2)
    (hS : ∀ x, x ∈ r1.sumsub_requirements.required_fields ↔
      x ∈ r2.sumsub_requirements.required_fields)
    (hB : ∀ x, x ∈ r1.counterparty_requirements.required_fields ↔
      x ∈ r2.counterparty_requirements.required_fields)
    (hdir : in1.transfer_direction = in2.transfer_direction) :
    r1.compliance_status = r2.compliance_status := by
  obtain ⟨aS, aC, hS1, hC1, hr1⟩ := calculateCompliance_ok_inv h1
  obtain ⟨bS, bC, hS2, hC2, hr2⟩ := calculateCompliance_ok_inv h2
  subst hr1
  subst hr2
  rw [evalWithConfigs_status, evalWithConfigs_status, hdir]
  exact determine_respects_sets (extract_requiredFields_nodup _)
    (extract_requiredFields_nodup _) (extract_requiredFields_nodup _)
    (extract_requiredFields_nodup _) hS hB _

/-- C5 witness: two demo evaluations whose mandatory sets agree (in a
different order) but whose OR-group tables differ get the same
classification. -/
theorem c5_witness :
    (evalWithConfigs demoConfig demoConfig demoConvert demoInput).compliance_status =
      (evalWithConfigs demoConfigAlt demoConfigAlt demoConvert
        demoInputAlt).compliance_status := by
  have e1 : (evalWithConfigs demoConfig demoConfig demoConvert
      demoInput).sumsub_requirements.required_fields = ["full_name", "wallet_address"] := by
    decide
  have e2 : (evalWithConfigs demoConfigAlt demoConfigAlt demoConvert
      demoInputAlt).sumsub_requirements.required_fields = ["wallet_address", "full_name"] := by
    decide
  have e3 : (evalWithConfigs demoConfig demoConfig demoConvert
      demoInput).counterparty_requirements.required_fields =
      ["full_name", "wallet_address"] := by
    decide
  have e4 : (evalWithConfigs demoConfigAlt demoConfigAlt demoConvert
      demoInputAlt).counterparty_requirements.required_fields =
      ["wallet_address", "full_name"] := by
    decide
  exact c5_classification_hyperproperty demoConfigs demoConfigs demoConvert demoConvert
    demoInput demoInputAlt _ _
    (calculateCompliance_some_some rfl rfl) (calculateCompliance_some_some rfl rfl)
    (by intro x; rw [e1, e2]; simp [or_comm])
    (by intro x; rw [e3, e4]; simp [or_comm])
    rfl

/-! Claim C10. -/

theorem setRes_mem {l : List (String × String)} {k v : String} {p : String × String}
    (hp : p ∈ setRes l k v) : p = (k, v) ∨ p ∈ l := by
  unfold setRes at hp
  split at hp
  case isTrue h =>
    rcases List.mem_map.mp hp with ⟨q, hq, hqe⟩
    by_cases hqk : (q.1 == k) = true
    · rw [if_pos hqk] at hqe
      exact Or.inl hqe.symm
    · rw [if_neg hqk] at hqe
      exact Or.inr (hqe ▸ hq)
  case isFalse h =>
    rcases List.mem_append.mp hp with hp | hp
    · exact Or.inr hp
    · rw [List.mem_singleton] at hp
      exact Or.inl hp

theorem pass2Group_og_mem (C : List String) (st : MatchState) (g : String × List String)
    {p : String × String} (hp : p ∈ (pass2Group C st g).orGroupMatches) :
    p ∈ st.orGroupMatches ∨ (p.1 = g.1 ∧
      (p.2 ∈ g.2 ∨ (p.2 = "date_of_birth + birthplace" ∧ isDeuOrGroup g.2 = true))) := by
  unfold pass2Group orGroupCombination orGroupScan at hp
  split at hp
  · exact Or.inl hp
  · cases hfind : g.2.find? (fun f => decide (f ∈ C ∧ f ∉ st.matchedSumsubFields)) with
    | none =>
      rw [hfind] at hp
      split at hp
      case isTrue hguard =>
        split at hp
        · rcases setRes_mem hp with hp | hp
          · refine Or.inr ⟨by rw [hp], Or.inr ⟨by rw [hp], ?_⟩⟩
            rw [Bool.and_eq_true] at hguard
            exact hguard.2
          · exact Or.inl hp
        · exact Or.inl hp
      case isFalse hguard => exact Or.inl hp
    | some f =>
      rw [hfind] at hp
      have hfg : f ∈ g.2 := List.mem_of_find?_eq_some hfind
      split at hp
      case isTrue hguard =>
        split at hp
        · rcases setRes_mem hp with hp | hp
          · refine Or.inr ⟨by rw [hp], Or.inr ⟨by rw [hp], ?_⟩⟩
            rw [Bool.and_eq_true] at hguard
            exact hguard.2
          · rcases setRes_mem hp with hp | hp
            · exact Or.inr ⟨by rw [hp], Or.inl (by rw [hp]; exact hfg)⟩
            · exact Or.inl hp
        · rcases setRes_mem hp with hp | hp
          · exact Or.inr ⟨by rw [hp], Or.inl (by rw [hp]; exact hfg)⟩
          · exact Or.inl hp
      case isFalse hguard =>
        rcases setRes_mem hp with hp | hp
        · exact Or.inr ⟨by rw [hp], Or.inl (by rw [hp]; exact hfg)⟩
        · exact Or.inl hp

theorem pass2Fold_og_mem (C : List String) (l : List (String × List String))
    (st : MatchState) {p : String × String}
    (hp : p ∈ (l.foldl (pass2Group C) st).orGroupMatches) :
    p ∈ st.orGroupMatches ∨ ∃ g, g ∈ l ∧ p.1 = g.1 ∧
      (p.2 ∈ g.2 ∨ (p.2 = "date_of_birth + birthplace" ∧ isDeuOrGroup g.2 = true)) := by
  induction l generalizing st with
  | nil => exact Or.inl hp
  | cons g t ih =>
    rw [List.foldl_cons] at hp
    rcases ih _ hp with hp2 | ⟨g2, hg2, hge⟩
    · rcases pass2Group_og_mem C st g hp2 with hp3 | hp3
      · exact Or.inl hp3
      · exact Or.inr ⟨g, List.mem_cons_self g t, hp3⟩
    · exact Or.inr ⟨g2, List.mem_cons_of_mem g hg2, hge⟩

/-- C10: every entry of the matcher's resolution record maps a group
identifier either to a field key from the declared field list of an
OR-group carrying that identifier on one of the two sides, or to the
literal composite label, the latter only for a group satisfying the DEU
4-field test (exactly four fields containing the four alternative
identity keys). -/
theorem c10_resolution_validity (A B : List String)
    (oA oB : List (String × List String)) (dir : TransferDirection) :
    ∀ p ∈ (analyzeFieldDifferencesWithOrGroups A B oA oB dir).or_group_matches,
      ∃ fs, ((p.1, fs) ∈ oA ∨ (p.1, fs) ∈ oB) ∧
        (p.2 ∈ fs ∨ (p.2 = "date_of_birth + birthplace" ∧ isDeuOrGroup fs = true)) := by
  intro p hp
  have hog : (analyzeFieldDifferencesWithOrGroups A B oA oB dir).or_group_matches =
      (matchState A B oA oB).orGroupMatches := by
    unfold analyzeFieldDifferencesWithOrGroups
    cases dir <;> rfl
  rw [hog] at hp
  simp only [matchState] at hp
  rw [pass4Fold_orGroupMatches, pass3Group_eq_pass2Group] at hp
  rcases pass2Fold_og_mem B oA _ hp with hp2 | ⟨g, hg, h1, h2⟩
  · rcases pass2Fold_og_mem A oB _ hp2 with hp3 | ⟨g, hg, h1, h2⟩
    · rw [pass1_orGroupMatches] at hp3
      exact absurd hp3 (List.not_mem_nil p)
    · exact ⟨g.2, Or.inr (by rw [h1, Prod.mk.eta]; exact hg), h2⟩
  · exact ⟨g.2, Or.inl (by rw [h1, Prod.mk.eta]; exact hg), h2⟩

/-- C10 witness: on a run where the counterparty DEU group is resolved by
customer_id, the theorem yields that the resolved field belongs to the
group's declared field list. -/
theorem c10_witness : (("customer_id") : String) ∈ deuFields := by
  obtain ⟨fs, hmem, hval⟩ := c10_resolution_validity ["customer_id"] [] []
    [(("or_group_0"), deuFields)] .OUT (("or_group_0"), ("customer_id")) (by decide)
  rcases hmem with h | h
  · exact absurd h (List.not_mem_nil _)
  · rw [List.mem_singleton] at h
    injection h with h1 h2
    rcases hval with hv | hv
    · exact h2 ▸ hv
    · exact absurd hv.1 (by decide)

/-! Claim C4. -/

theorem pass2Group_skip (C : List String) (st : MatchState) (g : String × List String)
    (h : truthy (lookupRes st.orGroupMatches g.1) = true) : pass2Group C st g = st := by
  unfold pass2Group
  rw [if_pos h]

theorem lookupRes_mem {l : List (String × String)} {k w : String}
    (h : lookupRes l k = some w) : ∃ p, p ∈ l ∧ p.2 = w := by
  unfold lookupRes at h
  cases hf : l.find? (fun p => p.1 == k) with
  | none =>
    rw [hf] at h
    exact Option.noConfusion h
  | some p =>
    rw [hf] at h
    exact ⟨p, List.mem_of_find?_eq_some hf, by injection h⟩

theorem pass2Fold_values (C : List String) (l : List (String × List String))
    (st : MatchState) (hst : ∀ p ∈ st.orGroupMatches, p.2 ≠ "")
    (hl : ∀ g ∈ l, ∀ f ∈ g.2, f ≠ "") :
    ∀ p ∈ (l.foldl (pass2Group C) st).orGroupMatches, p.2 ≠ "" := by
  intro p hp
  rcases pass2Fold_og_mem C l st hp with hp | ⟨g, hg, h1, h2⟩
  · exact hst p hp
  · rcases h2 with h2 | h2
    · exact hl g hg _ h2
    · rw [h2.1]
      decide

theorem pass2Fold_resolved_frame (C : List String) (l : List (String × List String))
    (st : MatchState) {gid v : String} (hv : v ≠ "")
    (hk : lookupRes st.orGroupMatches gid = some v) :
    lookupRes ((l.foldl (pass2Group C) st)).orGroupMatches gid = some v ∧
    (l.foldl (pass2Group C) st).fieldMatches.filter (fun m => m.orGroupId == some gid) =
      st.fieldMatches.filter (fun m => m.orGroupId == some gid) := by
  refine foldl_inv (P := fun s => lookupRes s.orGroupMatches gid = some v ∧
    s.fieldMatches.filter (fun m => m.orGroupId == some gid) =
      st.fieldMatches.filter (fun m => m.orGroupId == some gid)) ?_ st ⟨hk, rfl⟩
  intro s g hg hP
  obtain ⟨hPk, hPm⟩ := hP
  by_cases hkg : gid = g.1
  · have hskip : pass2Group C s g = s := by
      refine pass2Group_skip C s g ?_
      rw [← hkg, hPk]
      simp [truthy, hv]
    rw [hskip]
    exact ⟨hPk, hPm⟩
  · obtain ⟨ms, hms, hmsid⟩ := pass2Group_matches_extend C s g
    refine ⟨by rw [pass2Group_lookup_frame C s g hkg]; exact hPk, ?_⟩
    rw [hms, List.filter_append, hPm]
    have hnil : ms.filter (fun m => m.orGroupId == some gid) = [] := by
      rw [List.filter_eq_nil_iff]
      intro m hm
      rw [hmsid m hm]
      simp only [beq_iff_eq, Option.some.injEq]
      exact fun h => hkg h.symm
    rw [hnil, List.append_nil]

theorem setRes_keys_nodup {l : List (String × String)}
    (h : (l.map Prod.fst).Nodup) (k v : String) :
    ((setRes l k v).map Prod.fst).Nodup := by
  unfold setRes
  split
  case isTrue ha =>
    have hmap : (l.map (fun p => if (p.1 == k) = true then (k, v) else p)).map Prod.fst =
        l.map Prod.fst := by
      rw [List.map_map]
      apply List.map_congr_left
      intro p hp
      by_cases hpk : (p.1 == k) = true
      · have : p.1 = k := by simpa using hpk
        simp [Function.comp, hpk, this]
      · simp [Function.comp, hpk]
    rw [hmap]
    exact h
  case isFalse ha =>
    rw [List.map_append]
    show (l.map Prod.fst ++ [k]).Nodup
    have hkn : k ∉ l.map Prod.fst := by
      intro hkm
      rcases List.mem_map.mp hkm with ⟨p, hp, hpe⟩
      exact ha (List.any_eq_true.mpr ⟨p, hp, by simp [hpe]⟩)
    refine List.Nodup.append h (List.nodup_singleton k) ?_
    intro x hx hxk
    rw [List.mem_singleton] at hxk
    exact hkn (hxk ▸ hx)

theorem pass2Group_keys_nodup (C : List String) (st : MatchState)
    (g : String × List String) (h : (st.orGroupMatches.map Prod.fst).Nodup) :
    ((pass2Group C st g).orGroupMatches.map Prod.fst).Nodup := by
  rcases pass2Group_shape C st g with he | ⟨f, hf, he⟩ | he | ⟨f, hf, he⟩
  · rw [he]; exact h
  · rw [he]; exact setRes_keys_nodup h g.1 f
  · rw [he]; exact setRes_keys_nodup h g.1 _
  · rw [he]; exact setRes_keys_nodup (setRes_keys_nodup h g.1 f) g.1 _

theorem pass2Fold_keys_nodup (C : List String) (l : List (String × List String))
    (st : MatchState) (h : (st.orGroupMatches.map Prod.fst).Nodup) :
    (((l.foldl (pass2Group C) st)).orGroupMatches.map Prod.fst).Nodup :=
  foldl_inv (fun s g _ hs => pass2Group_keys_nodup C s g hs) st h

/-- C4 counterexample: with an empty-string field key, the counterparty's
or_group_0 is resolved in pass 2 (its recorded resolution is the empty
string), yet pass 3 does not skip the sumsub group with the colliding
identifier: it records a second match for it and overwrites the shared
record's entry with "x". -/
theorem c4_counterexample :
    (lookupRes ((([(("or_group_0"), [""])]).foldl (pass2Group [""])
      (pass1 [""] ["x"])).orGroupMatches) ("or_group_0") = some ("")) ∧
    lookupRes ((analyzeFieldDifferencesWithOrGroups [""] ["x"]
      [(("or_group_0"), ["x"])] [(("or_group_0"), [""])] .OUT).or_group_matches)
      ("or_group_0") = some ("x") ∧
    ((analyzeFieldDifferencesWithOrGroups [""] ["x"] [(("or_group_0"), ["x"])]
      [(("or_group_0"), [""])] .OUT).field_matches.filter
        (fun m => m.orGroupId == some ("or_group_0"))).length = 2 := by
  decide

/-- C4 amended: provided every field key in the counterparty's OR-group
table is a non-empty string (JavaScript truthiness reads an empty-string
resolution as unresolved), a counterparty OR-group resolved in pass 2
makes pass 3 skip the same-identifier sumsub group entirely: every pass-2
resolution survives pass 3 unchanged, no pass-3 match is recorded for a
resolved identifier, and the final resolution record is single-valued
(its identifiers are pairwise distinct). -/
theorem c4_pass3_skip (A B : List String) (oA oB : List (String × List String))
    (hB : ∀ g ∈ oB, ∀ f ∈ g.2, f ≠ "") (gid v : String)
    (hres : lookupRes ((oB.foldl (pass2Group A) (pass1 A B)).orGroupMatches) gid =
      some v) :
    (∀ k w, lookupRes ((oB.foldl (pass2Group A) (pass1 A B)).orGroupMatches) k =
        some w →
      lookupRes ((oA.foldl (pass3Group B) (oB.foldl (pass2Group A)
        (pass1 A B))).orGroupMatches) k = some w) ∧
    (oA.foldl (pass3Group B) (oB.foldl (pass2Group A) (pass1 A B))).fieldMatches.filter
        (fun m => m.orGroupId == some gid) =
      (oB.foldl (pass2Group A) (pass1 A B)).fieldMatches.filter
        (fun m => m.orGroupId == some gid) ∧
    ((oA.foldl (pass3Group B) (oB.foldl (pass2Group A)
      (pass1 A B))).orGroupMatches.map Prod.fst).Nodup := by
  have hst1 : ∀ p ∈ (pass1 A B).orGroupMatches, p.2 ≠ "" := by
    rw [pass1_orGroupMatches]
    intro p hp
    exact absurd hp (List.not_mem_nil p)
  have hst2 : ∀ p ∈ (oB.foldl (pass2Group A) (pass1 A B)).orGroupMatches, p.2 ≠ "" :=
    pass2Fold_values A oB _ hst1 hB
  rw [pass3Group_eq_pass2Group]
  refine ⟨?_, ?_, ?_⟩
  · intro k w hk
    have hw : w ≠ "" := by
      obtain ⟨p, hp, hpe⟩ := lookupRes_mem hk
      exact hpe ▸ hst2 p hp
    exact (pass2Fold_resolved_frame B oA _ hw hk).1
  · have hv : v ≠ "" := by
      obtain ⟨p, hp, hpe⟩ := lookupRes_mem hres
      exact hpe ▸ hst2 p hp
    exact (pass2Fold_resolved_frame B oA _ hv hres).2
  · refine pass2Fold_keys_nodup B oA _ (pass2Fold_keys_nodup A oB _ ?_)
    rw [pass1_orGroupMatches]
    exact List.nodup_nil

/-- C4 witness: on the demo run where pass 2 resolves the counterparty
DEU group to customer_id, the colliding sumsub group is skipped by pass 3:
resolution, match list and single-valuedness are as the amended claim
states. -/
theorem c4_witness :
    lookupRes c4DemoState3.orGroupMatches ("or_group_0") = some ("customer_id") ∧
    c4DemoState3.fieldMatches.filter (fun m => m.orGroupId == some ("or_group_0")) =
      c4DemoState2.fieldMatches.filter (fun m => m.orGroupId == some ("or_group_0")) ∧
    (c4DemoState3.orGroupMatches.map Prod.fst).Nodup := by
  obtain ⟨h1, h2, h3⟩ := c4_pass3_skip ["customer_id"] [] [(("or_group_0"), ["x"])]
    [(("or_group_0"), deuFields)] (by decide) ("or_group_0") ("customer_id") (by decide)
  exact ⟨h1 ("or_group_0") ("customer_id") (by decide), h2, h3⟩

/-! Claim C6. -/

theorem semanticMappingsTable_self : ∀ p ∈ semanticMappingsTable, p.1 ∉ p.2 := by decide

theorem self_not_mem_semanticAliases (s : String) : s ∉ semanticAliases s := by
  unfold semanticAliases
  cases hf : semanticMappingsTable.find? (fun p => p.1 == s) with
  | none => simp
  | some p =>
    have hp : p ∈ semanticMappingsTable := List.mem_of_find?_eq_some hf
    have hps : p.1 = s := by simpa using List.find?_some hf
    intro hs
    simp only [Option.map_some', Option.getD_some] at hs
    exact semanticMappingsTable_self p hp (hps.symm ▸ hs)

/-- C6: direction inversion for mandatory sets A = [x, y], B = [x] with x, y
distinct and no semantic alias relating y to x: direction OUT classifies as
overcompliance with the source-sends-more list [y] and the counterparty list
empty; direction IN classifies as sender_may_not_provide with missing fields
[y], computed from A's unclaimed fields. -/
theorem c6_direction_inversion (x y : String) (hxy : x ≠ y)
    (halias : x ∉ semanticAliases y) :
    determineComplianceStatus [x, y] [x] .OUT = .overcompliance ∧
    (analyzeFieldDifferencesWithOrGroups [x, y] [x] [] [] .OUT).sumsub_sends_more = [y] ∧
    (analyzeFieldDifferencesWithOrGroups [x, y] [x] [] [] .OUT).counterparty_sends_more = [] ∧
    determineComplianceStatus [x, y] [x] .IN = .sender_may_not_provide ∧
    (analyzeFieldDifferencesWithOrGroups [x, y] [x] [] [] .IN).missing_fields = [y] := by
  have hyx : y ≠ x := fun h => hxy h.symm
  have hsem : findSemanticMatches [x, y] [x] = [] := by
    unfold findSemanticMatches
    have hx : (semanticAliases x).filter (fun c => decide (c ∈ [x])) = [] := by
      rw [List.filter_eq_nil_iff]
      intro c hc
      simp only [List.mem_singleton, decide_eq_true_eq]
      intro hcx
      exact self_not_mem_semanticAliases x (hcx ▸ hc)
    have hy : (semanticAliases y).filter (fun c => decide (c ∈ [x])) = [] := by
      rw [List.filter_eq_nil_iff]
      intro c hc
      simp only [List.mem_singleton, decide_eq_true_eq]
      intro hcx
      exact halias (hcx ▸ hc)
    simp only [List.flatMap_cons, List.flatMap_nil, hx, hy, List.map_nil,
      List.append_nil]
  have hst : matchState [x, y] [x] [] [] = ⟨[⟨x, x, true, none, none⟩], [x], [x], []⟩ := by
    unfold matchState pass1 initState pass1Step
    rw [hsem]
    simp [setAdd, hyx]
  have hcov : ¬(∀ f ∈ ([x, y] : List String), f ∈ [x]) := by
    intro h
    have hy2 := h y (by simp)
    rw [List.mem_singleton] at hy2
    exact hyx hy2
  refine ⟨?_, ?_, ?_, ?_, ?_⟩
  · simp [determineComplianceStatus, hcov, hxy]
  · simp [analyzeFieldDifferencesWithOrGroups, hst, hyx]
  · simp [analyzeFieldDifferencesWithOrGroups, hst]
  · simp [determineComplianceStatus, hcov, hxy, hyx]
  · simp [analyzeFieldDifferencesWithOrGroups, hst, hyx]

/-- C6 witness: the theorem at x = full_name, y = nationality (nationality
has no alias equal to full_name). -/
theorem c6_witness :
    determineComplianceStatus [("full_name"), ("nationality")] [("full_name")] .OUT =
      .overcompliance ∧
    (analyzeFieldDifferencesWithOrGroups [("full_name"), ("nationality")]
      [("full_name")] [] [] .OUT).sumsub_sends_more = [("nationality")] ∧
    (analyzeFieldDifferencesWithOrGroups [("full_name"), ("nationality")]
      [("full_name")] [] [] .OUT).counterparty_sends_more = [] ∧
    determineComplianceStatus [("full_name"), ("nationality")] [("full_name")] .IN =
      .sender_may_not_provide ∧
    (analyzeFieldDifferencesWithOrGroups [("full_name"), ("nationality")]
      [("full_name")] [] [] .IN).missing_fields = [("nationality")] :=
  c6_direction_inversion ("full_name") ("nationality") (by decide) (by decide)

/-! Claim C3. -/

/-- C3: pass 3 is symmetric to pass 2 with roles reversed.  The code's
pass 3 (whose scan tests the sumsub-side claimed set) coincides, from the
state produced by passes 1 and 2, with the specification-worded variant
whose scan tests the counterparty-side claimed set; and for any state, a
non-skipped group whose declared field list finds a first field present
in the counterparty's mandatory set and unclaimed on the counterparty's
side is resolved by exactly that field: one exact alternative-flagged
match, both sides claimed, the field recorded as the group's
resolution. -/
theorem c3_pass3_symmetric (A B : List String) (oA oB : List (String × List String)) :
    oA.foldl (pass3Group B) (oB.foldl (pass2Group A) (pass1 A B)) =
      oA.foldl (pass3GroupSpec B) (oB.foldl (pass2Group A) (pass1 A B)) ∧
    ∀ (st : MatchState) (gid : String) (fs : List String) (f : String),
      truthy (lookupRes st.orGroupMatches gid) = false →
      fs.find? (fun z => decide (z ∈ B ∧ z ∉ st.matchedCounterpartyFields)) = some f →
      pass3GroupSpec B st (gid, fs) = addOrMatch st gid f := by
  constructor
  · exact pass3Fold_eq_spec B oA _
      (pass2Fold_claims_eq A oB _ (pass1_claims_eq A B))
  · intro st gid fs f hguard hfind
    unfold pass3GroupSpec orGroupScanSpec orGroupCombination
    dsimp only
    rw [if_neg (by simp [hguard]), hfind]
    have hlook : lookupRes (addOrMatch st gid f).orGroupMatches gid = some f :=
      lookupRes_setRes_self st.orGroupMatches gid f
    by_cases hdeu : isDeuOrGroup fs = true
    · have hfs : f ∈ fs := List.mem_of_find?_eq_some hfind
      have hne : f ≠ "" := deuFields_nonempty f (isDeu_mem hdeu hfs)
      rw [if_neg (by rw [hlook]; simp [truthy, hne])]
    · rw [if_neg (by simp [Bool.and_eq_true, hdeu])]

/-- C3 witness: the theorem at a one-group instance — the code fold and
the spec fold agree, and the group resolves to the first qualifying
field p. -/
theorem c3_witness :
    (([(("or_group_0"), ["p"])]).foldl (pass3Group ["p"])
      (([] : List (String × List String)).foldl (pass2Group ["q"])
        (pass1 ["q"] ["p"])) =
      ([(("or_group_0"), ["p"])]).foldl (pass3GroupSpec ["p"])
        (([] : List (String × List String)).foldl (pass2Group ["q"])
          (pass1 ["q"] ["p"]))) ∧
    pass3GroupSpec ["p"] initState (("or_group_0"), ["p"]) =
      addOrMatch initState ("or_group_0") ("p") := by
  have h := c3_pass3_symmetric ["q"] ["p"] [(("or_group_0"), ["p"])] []
  exact ⟨h.1, h.2 initState ("or_group_0") ["p"] ("p") (by decide) (by decide)⟩

/-! Claim C1. -/

/-- C1 counterexample: with the counterparty owning the DEU 4-field group
and the sumsub mandatory set containing date_of_birth and birthplace but
neither id_document_number nor customer_id (and the owner's mandatory set
not claiming them), the group is resolved by the single-field rule at
date_of_birth — one match, resolution "date_of_birth" — not by the
combination rule. -/
theorem c1_counterexample :
    lookupRes ((analyzeFieldDifferencesWithOrGroups ["date_of_birth", "birthplace"]
      [] [] [(("or_group_0"), deuFields)] .OUT).or_group_matches) ("or_group_0") =
      some ("date_of_birth") ∧
    ((analyzeFieldDifferencesWithOrGroups ["date_of_birth", "birthplace"] [] []
      [(("or_group_0"), deuFields)] .OUT).field_matches.filter
        (fun m => m.orGroupId == some ("or_group_0"))).length = 1 ∧
    ("date_of_birth" : String) ≠ "date_of_birth + birthplace" := by
  decide

theorem pass2Group_deu_combination (C : List String) (st : MatchState)
    (gid : String) (fs : List String)
    (hlook : lookupRes st.orGroupMatches gid = none)
    (hfind : fs.find? (fun f => decide (f ∈ C ∧ f ∉ st.matchedSumsubFields)) = none)
    (hdeu : isDeuOrGroup fs = true)
    (hcheck : checkDeuCombinationMatch C fs = true) :
    pass2Group C st (gid, fs) = applyDeuCombination st gid := by
  unfold pass2Group orGroupScan orGroupCombination
  dsimp only
  rw [if_neg (by rw [hlook]; simp [truthy]), hfind]
  dsimp only
  rw [if_pos (by rw [hlook]; simp [truthy, hdeu]), if_pos hcheck]

/-- C1 amended: when additionally date_of_birth and birthplace belong to
the group owner's own mandatory set as well (so pass 1 claims them on the
counterpart's side and no single field of the group resolves it), a
counterparty OR-group with the DEU 4-field signature resolves via the
combination rule: its recorded resolution is the composite label and the
matches recorded for it are exactly the two alternative-flagged exact
matches for date_of_birth and birthplace. -/
theorem c1_combination_rule (A B : List String) (oA oB : List (String × List String))
    (dir : TransferDirection) (gid : String) (fs : List String)
    (hkeys : (oB.map Prod.fst).Nodup)
    (hmem : (gid, fs) ∈ oB)
    (hdeu : isDeuOrGroup fs = true)
    (hdobA : ("date_of_birth") ∈ A) (hbpA : ("birthplace") ∈ A)
    (hidA : ("id_document_number") ∉ A) (hcidA : ("customer_id") ∉ A)
    (hdobB : ("date_of_birth") ∈ B) (hbpB : ("birthplace") ∈ B) :
    lookupRes ((analyzeFieldDifferencesWithOrGroups A B oA oB dir).or_group_matches)
      gid = some ("date_of_birth + birthplace") ∧
    (analyzeFieldDifferencesWithOrGroups A B oA oB dir).field_matches.filter
        (fun m => m.orGroupId == some gid) =
      [⟨("date_of_birth"), ("date_of_birth"), true, some true, some gid⟩,
       ⟨("birthplace"), ("birthplace"), true, some true, some gid⟩] := by
  have hog : (analyzeFieldDifferencesWithOrGroups A B oA oB dir).or_group_matches =
      (matchState A B oA oB).orGroupMatches := by
    unfold analyzeFieldDifferencesWithOrGroups
    cases dir <;> rfl
  have hfm : (analyzeFieldDifferencesWithOrGroups A B oA oB dir).field_matches =
      (matchState A B oA oB).fieldMatches := by
    unfold analyzeFieldDifferencesWithOrGroups
    cases dir <;> rfl
  rw [hog, hfm]
  obtain ⟨pre, post, hsplit⟩ := List.append_of_mem hmem
  subst hsplit
  have hkeys2 := hkeys
  rw [List.map_append, List.map_cons, List.nodup_append] at hkeys2
  obtain ⟨hnpre, hncons, hdisj⟩ := hkeys2
  rw [List.nodup_cons] at hncons
  have hgid_pre : ∀ p ∈ pre, p.1 ≠ gid := by
    intro p hp he
    have hmm : p.1 ∈ pre.map Prod.fst := List.mem_map_of_mem Prod.fst hp
    rw [he] at hmm
    exact hdisj hmm (List.mem_cons_self _ _)
  have hgid_post : ∀ p ∈ post, p.1 ≠ gid := by
    intro p hp he
    have hmm : p.1 ∈ post.map Prod.fst := List.mem_map_of_mem Prod.fst hp
    rw [he] at hmm
    exact hncons.1 hmm
  have hlookPre : lookupRes ((pre.foldl (pass2Group A)
      (pass1 A B)).orGroupMatches) gid = none := by
    rw [pass2Fold_lookup_frame A pre (pass1 A B) hgid_pre, pass1_orGroupMatches]
    rfl
  have hdobPre : ("date_of_birth") ∈
      (pre.foldl (pass2Group A) (pass1 A B)).matchedSumsubFields :=
    pass2Fold_mS_mono A pre _ (pass1_inter_mS A B hdobA hdobB)
  have hbpPre : ("birthplace") ∈
      (pre.foldl (pass2Group A) (pass1 A B)).matchedSumsubFields :=
    pass2Fold_mS_mono A pre _ (pass1_inter_mS A B hbpA hbpB)
  have hfind : fs.find? (fun f => decide (f ∈ A ∧
      f ∉ (pre.foldl (pass2Group A) (pass1 A B)).matchedSumsubFields)) = none := by
    rw [List.find?_eq_none]
    intro z hz
    have hz4 : z = "id_document_number" ∨ z = "customer_id" ∨
        z = "date_of_birth" ∨ z = "birthplace" := by
      simpa [deuFields] using isDeu_mem hdeu hz
    simp only [decide_eq_true_eq]
    rintro ⟨h1, h2⟩
    rcases hz4 with rfl | rfl | rfl | rfl
    · exact hidA h1
    · exact hcidA h1
    · exact h2 hdobPre
    · exact h2 hbpPre
  have hcheck : checkDeuCombinationMatch A fs = true := by
    unfold checkDeuCombinationMatch
    simp [hdobA, hbpA]
  have hstep : pass2Group A (pre.foldl (pass2Group A) (pass1 A B)) (gid, fs) =
      applyDeuCombination (pre.foldl (pass2Group A) (pass1 A B)) gid :=
    pass2Group_deu_combination A _ gid fs hlookPre hfind hdeu hcheck
  have hlookG : lookupRes ((applyDeuCombination (pre.foldl (pass2Group A)
      (pass1 A B)) gid).orGroupMatches) gid = some ("date_of_birth + birthplace") :=
    lookupRes_setRes_self _ _ _
  have hfilterPre : ((pre.foldl (pass2Group A) (pass1 A B)).fieldMatches).filter
      (fun m => m.orGroupId == some gid) = [] := by
    obtain ⟨ms, hms, hmsp⟩ := pass2Fold_matches_extend A pre (pass1 A B)
    rw [hms, List.filter_append]
    have h1 : (pass1 A B).fieldMatches.filter (fun m => m.orGroupId == some gid) = [] := by
      rw [List.filter_eq_nil_iff]
      intro m hm
      rw [(pass1_matches_plain A B m hm).1]
      simp
    have h2 : ms.filter (fun m => m.orGroupId == some gid) = [] := by
      rw [List.filter_eq_nil_iff]
      intro m hm
      obtain ⟨p, hp, hpe⟩ := hmsp m hm
      rw [hpe]
      simp only [beq_iff_eq, Option.some.injEq]
      exact hgid_pre p hp
    rw [h1, h2]
    rfl
  have hfilterG : ((applyDeuCombination (pre.foldl (pass2Group A) (pass1 A B))
      gid).fieldMatches).filter (fun m => m.orGroupId == some gid) =
      [⟨("date_of_birth"), ("date_of_birth"), true, some true, some gid⟩,
       ⟨("birthplace"), ("birthplace"), true, some true, some gid⟩] := by
    show ((pre.foldl (pass2Group A) (pass1 A B)).fieldMatches ++
      ([⟨("date_of_birth"), ("date_of_birth"), true, some true, some gid⟩,
        ⟨("birthplace"), ("birthplace"), true, some true, some gid⟩] :
          List FieldMatch)).filter (fun m => m.orGroupId == some gid) =
      ([⟨("date_of_birth"), ("date_of_birth"), true, some true, some gid⟩,
        ⟨("birthplace"), ("birthplace"), true, some true, some gid⟩] :
          List FieldMatch)
    rw [List.filter_append, hfilterPre, List.nil_append,
      List.filter_cons_of_pos (by simp), List.filter_cons_of_pos (by simp),
      List.filter_nil]
  have hpost := pass2Fold_resolved_frame A post
    (applyDeuCombination (pre.foldl (pass2Group A) (pass1 A B)) gid)
    (v := "date_of_birth + birthplace") (by decide) hlookG
  have hpass3 := pass2Fold_resolved_frame B oA
    (post.foldl (pass2Group A) (applyDeuCombination (pre.foldl (pass2Group A)
      (pass1 A B)) gid)) (v := "date_of_birth + birthplace") (by decide) hpost.1
  simp only [matchState]
  rw [pass3Group_eq_pass2Group, List.foldl_append, List.foldl_cons, hstep]
  constructor
  · rw [pass4Fold_orGroupMatches]
    exact hpass3.1
  · obtain ⟨msSem, hmsSem, hmsSemMem⟩ := pass4Fold_matches_extend
      (findSemanticMatches A B) (oA.foldl (pass2Group B) (post.foldl (pass2Group A)
        (applyDeuCombination (pre.foldl (pass2Group A) (pass1 A B)) gid)))
    rw [hmsSem, List.filter_append]
    have hsemnil : msSem.filter (fun m => m.orGroupId == some gid) = [] := by
      rw [List.filter_eq_nil_iff]
      intro m hm
      rw [(findSemanticMatches_shape A B m (hmsSemMem m hm)).2.2.2.2.2]
      simp
    rw [hsemnil, List.append_nil, hpass3.2, hpost.2, hfilterG]

/-- C1 witness: the amended theorem at a concrete instance where both
mandatory sets contain date_of_birth and birthplace. -/
theorem c1_witness :
    lookupRes ((analyzeFieldDifferencesWithOrGroups ["date_of_birth", "birthplace"]
      ["date_of_birth", "birthplace"] [] [(("or_group_0"), deuFields)]
      .OUT).or_group_matches) ("or_group_0") = some ("date_of_birth + birthplace") ∧
    (analyzeFieldDifferencesWithOrGroups ["date_of_birth", "birthplace"]
      ["date_of_birth", "birthplace"] [] [(("or_group_0"), deuFields)]
      .OUT).field_matches.filter (fun m => m.orGroupId == some ("or_group_0")) =
      [⟨("date_of_birth"), ("date_of_birth"), true, some true, some ("or_group_0")⟩,
       ⟨("birthplace"), ("birthplace"), true, some true, some ("or_group_0")⟩] :=
  c1_combination_rule ["date_of_birth", "birthplace"] ["date_of_birth", "birthplace"]
    [] [(("or_group_0"), deuFields)] .OUT ("or_group_0") deuFields
    (by decide) (by decide) (by decide) (by decide) (by decide) (by decide)
    (by decide) (by decide) (by decide)

/-! Claim C2: occurrence-count helpers. -/

theorem occCount_append (f : String) (l1 l2 : List FieldMatch) :
    occCount f (l1 ++ l2) = occCount f l1 + occCount f l2 := by
  unfold occCount
  rw [List.filter_append, List.length_append]

theorem occCount_single_le (f : String) (m : FieldMatch) : occCount f [m] ≤ 1 := by
  unfold occCount
  simpa using List.length_filter_le
    (fun m => decide (m.sumsubField = f ∨ m.counterpartyField = f)) [m]

theorem occCount_single_neg {f : String} {m : FieldMatch}
    (h1 : m.sumsubField ≠ f) (h2 : m.counterpartyField ≠ f) : occCount f [m] = 0 := by
  unfold occCount
  rw [List.filter_cons_of_neg (by simp [h1, h2]), List.filter_nil]
  rfl

theorem occCount_zero_of_unclaimed {st : MatchState} {f : String}
    (hcb : ∀ m ∈ st.fieldMatches, m.sumsubField ∈ st.matchedSumsubFields ∧
      m.counterpartyField ∈ st.matchedCounterpartyFields)
    (hs : f ∉ st.matchedSumsubFields) (hc : f ∉ st.matchedCounterpartyFields) :
    occCount f st.fieldMatches = 0 := by
  unfold occCount
  rw [List.length_eq_zero, List.filter_eq_nil_iff]
  intro m hm
  simp only [decide_eq_true_eq]
  rintro (he | he)
  · exact hs (he ▸ (hcb m hm).1)
  · exact hc (he ▸ (hcb m hm).2)

theorem occCount_zero_sumsub {A B : List String} {st : MatchState} {f : String}
    (hInv : MatcherInv A B st)
    (hinterS : ∀ x, x ∈ A → x ∈ B → x ∈ st.matchedSumsubFields)
    (hfA : f ∈ A) (hs : f ∉ st.matchedSumsubFields) :
    occCount f st.fieldMatches = 0 := by
  unfold occCount
  rw [List.length_eq_zero, List.filter_eq_nil_iff]
  intro m hm
  simp only [decide_eq_true_eq]
  rintro (he | he)
  · exact hs (he ▸ (hInv.1 m hm).1)
  · rcases hInv.2.1 m hm with hsym | ⟨hmA2, hmB2⟩
    · exact hs ((hsym.trans he) ▸ (hInv.1 m hm).1)
    · exact hs (hinterS f hfA (he ▸ hmB2))

theorem occCount_zero_cp {A B : List String} {st : MatchState} {f : String}
    (hInv : MatcherInv A B st)
    (hinterC : ∀ x, x ∈ A → x ∈ B → x ∈ st.matchedCounterpartyFields)
    (hfB : f ∈ B) (hc : f ∉ st.matchedCounterpartyFields) :
    occCount f st.fieldMatches = 0 := by
  unfold occCount
  rw [List.length_eq_zero, List.filter_eq_nil_iff]
  intro m hm
  simp only [decide_eq_true_eq]
  rintro (he | he)
  · rcases hInv.2.1 m hm with hsym | ⟨hmA2, hmB2⟩
    · exact hc ((hsym.symm.trans he) ▸ (hInv.1 m hm).2)
    · exact hc (hinterC f (he ▸ hmA2) hfB)
  · exact hc (he ▸ (hInv.1 m hm).2)

/-! Claim C2: invariant preservation by the atomic state updates. -/

theorem matcherInv_extend {A B : List String} {st st2 : MatchState} {m0 : FieldMatch}
    (hfm : st2.fieldMatches = st.fieldMatches ++ [m0])
    (hmS : st2.matchedSumsubFields = setAdd st.matchedSumsubFields m0.sumsubField)
    (hmC : st2.matchedCounterpartyFields =
      setAdd st.matchedCounterpartyFields m0.counterpartyField)
    (hInv : MatcherInv A B st)
    (hsh0 : m0.sumsubField = m0.counterpartyField ∨
      (m0.sumsubField ∈ A ∧ m0.counterpartyField ∈ B))
    (hoccS : occCount m0.sumsubField st.fieldMatches = 0)
    (hoccC : occCount m0.counterpartyField st.fieldMatches = 0) :
    MatcherInv A B st2 := by
  obtain ⟨hcb, hsh, hocc⟩ := hInv
  refine ⟨?_, ?_, ?_⟩
  · intro m hm
    rw [hfm] at hm
    rw [hmS, hmC]
    rcases List.mem_append.mp hm with hm | hm
    · exact ⟨mem_setAdd_of_mem _ (hcb m hm).1, mem_setAdd_of_mem _ (hcb m hm).2⟩
    · rw [List.mem_singleton] at hm
      subst hm
      exact ⟨mem_setAdd_self, mem_setAdd_self⟩
  · intro m hm
    rw [hfm] at hm
    rcases List.mem_append.mp hm with hm | hm
    · exact hsh m hm
    · rw [List.mem_singleton] at hm
      subst hm
      exact hsh0
  · intro f hf1 hf2
    rw [hfm, occCount_append]
    by_cases h1 : m0.sumsubField = f
    · rw [← h1, hoccS, Nat.zero_add]
      exact occCount_single_le _ m0
    · by_cases h2 : m0.counterpartyField = f
      · rw [← h2, hoccC, Nat.zero_add]
        exact occCount_single_le _ m0
      · rw [occCount_single_neg h1 h2, Nat.add_zero]
        exact hocc f hf1 hf2

theorem matcherInv_applyDeu {A B : List String} {st : MatchState}
    (hInv : MatcherInv A B st) (gid : String) :
    MatcherInv A B (applyDeuCombination st gid) := by
  obtain ⟨hcb, hsh, hocc⟩ := hInv
  refine ⟨?_, ?_, ?_⟩
  · intro m hm
    rcases List.mem_append.mp hm with hm | hm
    · exact ⟨mem_setAdd_of_mem _ (mem_setAdd_of_mem _ (hcb m hm).1),
        mem_setAdd_of_mem _ (mem_setAdd_of_mem _ (hcb m hm).2)⟩
    · rcases List.mem_cons.mp hm with hm | hm
      · subst hm
        exact ⟨mem_setAdd_of_mem _ mem_setAdd_self, mem_setAdd_of_mem _ mem_setAdd_self⟩
      · rw [List.mem_singleton] at hm
        subst hm
        exact ⟨mem_setAdd_self, mem_setAdd_self⟩
  · intro m hm
    rcases List.mem_append.mp hm with hm | hm
    · exact hsh m hm
    · rcases List.mem_cons.mp hm with hm | hm
      · subst hm
        exact Or.inl rfl
      · rw [List.mem_singleton] at hm
        subst hm
        exact Or.inl rfl
  · intro f hf1 hf2
    show occCount f (st.fieldMatches ++
      [⟨("date_of_birth"), ("date_of_birth"), true, some true, some gid⟩,
       ⟨("birthplace"), ("birthplace"), true, some true, some gid⟩]) ≤ 1
    rw [show ([⟨("date_of_birth"), ("date_of_birth"), true, some true, some gid⟩,
        ⟨("birthplace"), ("birthplace"), true, some true, some gid⟩] : List FieldMatch) =
      [⟨("date_of_birth"), ("date_of_birth"), true, some true, some gid⟩] ++
        [⟨("birthplace"), ("birthplace"), true, some true, some gid⟩] from rfl,
      occCount_append, occCount_append,
      occCount_single_neg (fun h => hf1 h.symm) (fun h => hf1 h.symm),
      occCount_single_neg (fun h => hf2 h.symm) (fun h => hf2 h.symm)]
    simpa using hocc f hf1 hf2

/-! Claim C2: invariant preservation through the four passes. -/

theorem matcherInv_initState (A B : List String) : MatcherInv A B initState := by
  refine ⟨?_, ?_, ?_⟩
  · intro m hm
    exact absurd hm (List.not_mem_nil m)
  · intro m hm
    exact absurd hm (List.not_mem_nil m)
  · intro f _ _
    show occCount f [] ≤ 1
    rw [show occCount f [] = 0 from rfl]
    exact Nat.zero_le 1

theorem pass1_fold_matcherInv (A B : List String) : ∀ (l : List String) (st : MatchState),
    l.Nodup → (∀ x ∈ l, x ∉ st.matchedSumsubFields) →
    st.matchedSumsubFields = st.matchedCounterpartyFields →
    MatcherInv A B st → MatcherInv A B (l.foldl (pass1Step B) st) := by
  intro l
  induction l with
  | nil =>
    intro st _ _ _ h
    exact h
  | cons a t ih =>
    intro st hnd hun heq hInv
    rw [List.foldl_cons]
    rw [List.nodup_cons] at hnd
    have has : a ∉ st.matchedSumsubFields := hun a (List.mem_cons_self a t)
    have hac : a ∉ st.matchedCounterpartyFields := heq ▸ has
    apply ih
    · exact hnd.2
    · intro x hx
      have hxa : x ≠ a := fun he => hnd.1 (he ▸ hx)
      have hxs : x ∉ st.matchedSumsubFields := hun x (List.mem_cons_of_mem a hx)
      unfold pass1Step
      split
      · intro hmem
        rcases mem_setAdd.mp hmem with h | h
        · exact hxs h
        · exact hxa h
      · exact hxs
    · exact pass1Step_claims_eq B st a heq
    · unfold pass1Step
      split
      · exact matcherInv_extend rfl rfl rfl hInv (Or.inl rfl)
          (occCount_zero_of_unclaimed hInv.1 has hac)
          (occCount_zero_of_unclaimed hInv.1 has hac)
      · exact hInv

theorem pass1_matcherInv (A B : List String) (hA : A.Nodup) :
    MatcherInv A B (pass1 A B) :=
  pass1_fold_matcherInv A B A initState hA
    (fun x _ hx => absurd hx (List.not_mem_nil x)) rfl (matcherInv_initState A B)

theorem pass2Group_matcherInv {A B : List String} (C : List String) {st : MatchState}
    (g : String × List String) (hInv : MatcherInv A B st)
    (heq : st.matchedSumsubFields = st.matchedCounterpartyFields) :
    MatcherInv A B (pass2Group C st g) := by
  unfold pass2Group orGroupCombination orGroupScan
  split
  · exact hInv
  · cases hfind : g.2.find? (fun f => decide (f ∈ C ∧ f ∉ st.matchedSumsubFields)) with
    | none =>
      split
      · split
        · exact matcherInv_applyDeu hInv g.1
        · exact hInv
      · exact hInv
    | some f =>
      have hcond := List.find?_some hfind
      simp only [decide_eq_true_eq] at hcond
      have hInv2 : MatcherInv A B (addOrMatch st g.1 f) :=
        matcherInv_extend rfl rfl rfl hInv (Or.inl rfl)
          (occCount_zero_of_unclaimed hInv.1 hcond.2 (heq ▸ hcond.2))
          (occCount_zero_of_unclaimed hInv.1 hcond.2 (heq ▸ hcond.2))
      split
      · split
        · exact matcherInv_applyDeu hInv2 g.1
        · exact hInv2
      · exact hInv2

theorem pass2Fold_matcherInv {A B : List String} (C : List String)
    (l : List (String × List String)) (st : MatchState)
    (hInv : MatcherInv A B st)
    (heq : st.matchedSumsubFields = st.matchedCounterpartyFields) :
    MatcherInv A B (l.foldl (pass2Group C) st) ∧
      (l.foldl (pass2Group C) st).matchedSumsubFields =
        (l.foldl (pass2Group C) st).matchedCounterpartyFields :=
  foldl_inv (P := fun s => MatcherInv A B s ∧
      s.matchedSumsubFields = s.matchedCounterpartyFields)
    (fun s g _ hP => ⟨pass2Group_matcherInv C g hP.1 hP.2,
      pass2Group_claims_eq C s g hP.2⟩) st ⟨hInv, heq⟩

theorem pass4Step_mS_mono (st : MatchState) (m : FieldMatch) {x : String}
    (hx : x ∈ st.matchedSumsubFields) : x ∈ (pass4Step st m).matchedSumsubFields := by
  unfold pass4Step
  split
  · exact mem_setAdd_of_mem _ hx
  · exact hx

theorem pass4Step_mC_mono (st : MatchState) (m : FieldMatch) {x : String}
    (hx : x ∈ st.matchedCounterpartyFields) :
    x ∈ (pass4Step st m).matchedCounterpartyFields := by
  unfold pass4Step
  split
  · exact mem_setAdd_of_mem _ hx
  · exact hx

theorem pass4Step_matcherInv {A B : List String} {st : MatchState} {m : FieldMatch}
    (hInv : MatcherInv A B st)
    (hinterS : ∀ x, x ∈ A → x ∈ B → x ∈ st.matchedSumsubFields)
    (hinterC : ∀ x, x ∈ A → x ∈ B → x ∈ st.matchedCounterpartyFields)
    (hmA : m.sumsubField ∈ A) (hmB : m.counterpartyField ∈ B) :
    MatcherInv A B (pass4Step st m) := by
  unfold pass4Step
  split
  case isTrue hcl =>
    exact matcherInv_extend rfl rfl rfl hInv (Or.inr ⟨hmA, hmB⟩)
      (occCount_zero_sumsub hInv hinterS hmA hcl.1)
      (occCount_zero_cp hInv hinterC hmB hcl.2)
  case isFalse hcl => exact hInv

theorem pass4Fold_matcherInv {A B : List String} (l : List FieldMatch) (st : MatchState)
    (hl : ∀ m ∈ l, m.sumsubField ∈ A ∧ m.counterpartyField ∈ B)
    (hInv : MatcherInv A B st)
    (hinterS : ∀ x, x ∈ A → x ∈ B → x ∈ st.matchedSumsubFields)
    (hinterC : ∀ x, x ∈ A → x ∈ B → x ∈ st.matchedCounterpartyFields) :
    MatcherInv A B (l.foldl pass4Step st) :=
  (foldl_inv (P := fun s => MatcherInv A B s ∧
      (∀ x, x ∈ A → x ∈ B → x ∈ s.matchedSumsubFields) ∧
      (∀ x, x ∈ A → x ∈ B → x ∈ s.matchedCounterpartyFields))
    (fun s m hm hP => ⟨pass4Step_matcherInv hP.1 hP.2.1 hP.2.2 (hl m hm).1 (hl m hm).2,
      fun x h1 h2 => pass4Step_mS_mono s m (hP.2.1 x h1 h2),
      fun x h1 h2 => pass4Step_mC_mono s m (hP.2.2 x h1 h2)⟩)
    st ⟨hInv, hinterS, hinterC⟩).1

/-- C2 counterexample: with both mandatory sets [date_of_birth, birthplace]
(duplicate-free) and the counterparty owning the DEU group, pass 1 claims
both fields exactly and the combination rule nevertheless matches
date_of_birth a second time: it occurs in two entries of the match list. -/
theorem c2_counterexample :
    occCount ("date_of_birth") ((analyzeFieldDifferencesWithOrGroups
      ["date_of_birth", "birthplace"] ["date_of_birth", "birthplace"] []
      [(("or_group_0"), deuFields)] .OUT).field_matches) = 2 := by
  decide

/-- C2 amended: in every FieldAnalysis returned by the matcher on a
duplicate-free sumsub mandatory list, matching is 1:1 for every field key
except date_of_birth and birthplace: any other key occurs in at most one
entry of the match list.  The DEU combination rule checks only set
membership, not claim status, so it may match date_of_birth and
birthplace a second time even when they were claimed by an exact match in
pass 1. -/
theorem c2_one_to_one (A B : List String) (oA oB : List (String × List String))
    (dir : TransferDirection) (hA : A.Nodup) (f : String)
    (hf1 : f ≠ "date_of_birth") (hf2 : f ≠ "birthplace") :
    occCount f (analyzeFieldDifferencesWithOrGroups A B oA oB dir).field_matches ≤ 1 := by
  have hfm : (analyzeFieldDifferencesWithOrGroups A B oA oB dir).field_matches =
      (matchState A B oA oB).fieldMatches := by
    unfold analyzeFieldDifferencesWithOrGroups
    cases dir <;> rfl
  rw [hfm]
  simp only [matchState]
  rw [pass3Group_eq_pass2Group]
  have h1 : MatcherInv A B (pass1 A B) := pass1_matcherInv A B hA
  have h2 := pass2Fold_matcherInv A oB (pass1 A B) h1 (pass1_claims_eq A B)
  have h3 := pass2Fold_matcherInv B oA _ h2.1 h2.2
  have hIS : ∀ x, x ∈ A → x ∈ B →
      x ∈ ((oA.foldl (pass2Group B) (oB.foldl (pass2Group A)
        (pass1 A B)))).matchedSumsubFields :=
    fun x hxa hxb => pass2Fold_mS_mono B oA _ (pass2Fold_mS_mono A oB _
      (pass1_inter_mS A B hxa hxb))
  have hIC : ∀ x, x ∈ A → x ∈ B →
      x ∈ ((oA.foldl (pass2Group B) (oB.foldl (pass2Group A)
        (pass1 A B)))).matchedCounterpartyFields :=
    fun x hxa hxb => pass2Fold_mC_mono B oA _ (pass2Fold_mC_mono A oB _
      (pass1_inter_mC A B hxa hxb))
  have h4 := pass4Fold_matcherInv (findSemanticMatches A B) _
    (fun m hm => ⟨(findSemanticMatches_shape A B m hm).1,
      (findSemanticMatches_shape A B m hm).2.1⟩) h3.1 hIS hIC
  exact h4.2.2 f hf1 hf2

/-- C2 witness: the amended theorem at a concrete input — full_name
occurs at most once in the match list. -/
theorem c2_witness :
    occCount ("full_name") ((analyzeFieldDifferencesWithOrGroups
      ["full_name", "date_of_birth", "birthplace"]
      ["full_name", "date_of_birth", "birthplace"] []
      [(("or_group_0"), deuFields)] .OUT).field_matches) ≤ 1 :=
  c2_one_to_one ["full_name", "date_of_birth", "birthplace"]
    ["full_name", "date_of_birth", "birthplace"] [] [(("or_group_0"), deuFields)]
    .OUT (by decide) ("full_name") (by decide) (by decide)

end TravelRule
